import Mathlib

/-
Verification of the Argo backend's retrieval-augmented memory subsystem.

Strings of the source are modelled as `List Char`.  The MD5 digest used by
`_create_message_id` is an external pure function; it is passed in as a
parameter `hash : List Char → List Char`, and `id_hash_input` is the exact
string the source feeds to it.  The ISO-timestamp conversion
`apple_to_iso` is likewise passed in as `iso : Int → Option (List Char)`
(`none` models Python `None`, produced for a zero Apple timestamp).
-/

namespace Argo

/-- Whitespace test used by Python `str.strip` (ASCII whitespace). -/
def isSpace (c : Char) : Bool :=
  c = ' ' || c = '\t' || c = '\n' || c = '\r' || c = '\x0b' || c = '\x0c'

/-- Python `str.strip()`: drop leading and trailing whitespace. -/
def pyStrip (s : List Char) : List Char :=
  ((s.dropWhile isSpace).reverse.dropWhile isSpace).reverse

/-- Python f-string rendering of a `str | None` value: `None` prints as "None". -/
def pyOptStr (o : Option (List Char)) : List Char :=
  o.getD "None".toList

/-- The string `services/rag_imessage_import.py` line 23 feeds to the MD5 hash:
`f"{contact_id}::{msg_timestamp}::{text_prefix}"` with the first 50 characters
of the text. -/
def id_hash_input (contact_id msg_timestamp text : List Char) : List Char :=
  contact_id ++ "::".toList ++ msg_timestamp ++ "::".toList ++ text.take 50

/-- `_create_message_id` (services/rag_imessage_import.py lines 18-25):
`f"{contact_id}::{msg_timestamp}::{content_hash}"` where `content_hash`
is the digest of `id_hash_input`. -/
def create_message_id (hash : List Char → List Char)
    (contact_id msg_timestamp text : List Char) : List Char :=
  contact_id ++ "::".toList ++ msg_timestamp ++ "::".toList ++
    hash (id_hash_input contact_id msg_timestamp text)

/-- `normalize_msg` (services/rag_imessage_import.py lines 13-16):
`f"[{ts}] {who}: {text.strip()}"`. -/
def normalize_msg (ts : List Char) (direction_out : Bool) (text : List Char) : List Char :=
  let who := if direction_out then "OUT".toList else "IN".toList
  "[".toList ++ ts ++ "] ".toList ++ who ++ ": ".toList ++ pyStrip text

/-- A row of the external `message` table joined to its chat, as the
services read it: ROWID, nullable text, Apple date, `is_from_me`, and the
handle id joined via `handle`. -/
structure DbMsg where
  rowid : Nat
  text : Option (List Char)
  date : Int
  is_from_me : Bool
  handle : Option (List Char)
deriving DecidableEq

/-- A chat thread of the external store. -/
structure Chat where
  chat_id : Nat
  display_name : Option (List Char)
  messages : List DbMsg
deriving DecidableEq

/-- A chat has at least one message with non-NULL text. -/
def hasTextMessage (c : Chat) : Bool :=
  c.messages.any (fun m => m.text.isSome)

/-- `list_contacts` (services/imessage_service.py lines 35-97): the SQL join
with `WHERE m.text IS NOT NULL GROUP BY c.ROWID` surfaces exactly the chats
having at least one non-NULL-text message (the result order is irrelevant to
every property below). -/
def list_contacts (store : List Chat) : List Chat :=
  store.filter hasTextMessage

/-- Sort of messages by `ORDER BY m.date ASC` (stable). -/
def sortByDateAsc (msgs : List DbMsg) : List DbMsg :=
  List.insertionSort (fun a b => a.date ≤ b.date) msgs

/-- A message as returned by `get_conversation`
(services/imessage_service.py lines 105-160): role is "user" iff
`is_from_me`, text is `text or ""`, timestamp is `apple_to_iso(date)`. -/
structure ConvoMsg where
  role_user : Bool
  text : List Char
  timestamp : Option (List Char)
deriving DecidableEq

/-- `get_conversation` restricted to the fields the importer reads. -/
def get_conversation (iso : Int → Option (List Char)) (c : Chat) : List ConvoMsg :=
  (sortByDateAsc c.messages).map (fun m =>
    { role_user := m.is_from_me, text := m.text.getD [], timestamp := iso m.date })

/-- A document inserted into the Vector Index Store: its id and its
normalized text. -/
structure RagEntry where
  id : List Char
  doc : List Char
deriving DecidableEq

/-- The inner loop of `import_imessage_history_from_db`
(services/rag_imessage_import.py lines 63-91) for one contact: strip the
text, skip empty texts, compute the deterministic id, and in incremental
mode skip ids already present in the Vector Index Store. -/
def import_entries_for_contact (hash : List Char → List Char)
    (iso : Int → Option (List Char)) (incremental : Bool)
    (existing : List (List Char)) (c : Chat) : List RagEntry :=
  (get_conversation iso c).filterMap (fun msg =>
    let text := pyStrip msg.text
    if text = [] then none
    else
      let ts := pyOptStr msg.timestamp
      let msg_id := create_message_id hash (Nat.toDigits 10 c.chat_id) ts text
      if incremental = true ∧ msg_id ∈ existing then none
      else some { id := msg_id, doc := normalize_msg ts msg.role_user text })

/-- `import_imessage_history_from_db`
(services/rag_imessage_import.py lines 27-123): the list of documents the
run inserts into the Vector Index Store, given the set `existing` of ids
returned by `get_existing_message_ids`. -/
def import_imessage_history_from_db (hash : List Char → List Char)
    (iso : Int → Option (List Char)) (incremental : Bool)
    (existing : List (List Char)) (store : List Chat) : List RagEntry :=
  (list_contacts store).flatMap (import_entries_for_contact hash iso incremental existing)

/-- `get_existing_message_ids` (services/rag_store.py lines 66-75): lists
the Vector Index Store's ids through `col.get(limit=100000)`, so at most
100000 of the stored ids come back — a store holding more documents has
part of its ids silently dropped from the result. -/
def get_existing_message_ids (ragIds : List (List Char)) : List (List Char) :=
  ragIds.take 100000

/-- A store with one contact and one message, for exercising the importer
at the `get_existing_message_ids` truncation limit. -/
def oneHelloStore : List Chat :=
  [⟨1, none, [⟨1, some "hello".toList, 1, false, none⟩]⟩]

/-- 100000 ids already indexed in the Vector Index Store before an import
over `oneHelloStore`; each starts with the character `x`, so none of them
is an id the importer computes (importer ids start with the decimal
contact id). -/
def bigIdSet : List (List Char) :=
  (List.range 100000).map (fun i => 'x' :: Nat.toDigits 10 i)

/-! Discussion Engine (services/discussions_service.py). -/

/-- `MAX_CONTEXT_LENGTH` (line 14). -/
def MAX_CONTEXT_LENGTH : Nat := 8000

/-- `MAX_DISCUSSION_CONTEXT_LENGTH` (line 15). -/
def MAX_DISCUSSION_CONTEXT_LENGTH : Nat := 3000

/-- `MAX_CHAT_HISTORY_CONTEXT_LENGTH` (line 16). -/
def MAX_CHAT_HISTORY_CONTEXT_LENGTH : Nat := 5000

/-- `_truncate_context` (lines 18-23): unchanged when within budget,
otherwise `"..." + text[-(max_length - 3):]`. -/
def truncate_context (text : List Char) (max_length : Nat) : List Char :=
  if text.length ≤ max_length then text
  else "...".toList ++ text.drop (text.length - (max_length - 3))

/-- Python `sep.join(parts)`. -/
def joinSep (sep : List Char) : List (List Char) → List Char
  | [] => []
  | [x] => x
  | x :: xs => x ++ sep ++ joinSep sep xs

/-- Context assembly of `chat_in_discussion` (lines 117-128): each present
block is truncated to its own budget and labelled. -/
def assemble_context_parts (discussion_context chat_history_context : List Char) :
    List (List Char) :=
  (if discussion_context ≠ [] then
      ["=== Discussion Context ===\n".toList ++
        truncate_context discussion_context MAX_DISCUSSION_CONTEXT_LENGTH]
    else []) ++
  (if chat_history_context ≠ [] then
      ["=== Chat History Context (from iMessage) ===\n".toList ++
        truncate_context chat_history_context MAX_CHAT_HISTORY_CONTEXT_LENGTH]
    else [])

/-- Lines 130-135: join the parts with blank lines and apply the final
8000-character safety truncation. -/
def combined_context (discussion_context chat_history_context : List Char) : List Char :=
  let ctx := joinSep "\n\n".toList
    (assemble_context_parts discussion_context chat_history_context)
  if MAX_CONTEXT_LENGTH < ctx.length then truncate_context ctx MAX_CONTEXT_LENGTH else ctx

/-- Line 145: `f"{combined_context}\n\nUser: {user_message}"` when a context
block exists, the bare user message otherwise. -/
def user_content (discussion_context chat_history_context user_message : List Char) :
    List Char :=
  let ctx := combined_context discussion_context chat_history_context
  if ctx ≠ [] then ctx ++ "\n\nUser: ".toList ++ user_message else user_message

/-- A row of the `discussion` table. -/
structure Discussion where
  id : List Char
  title : List Char
  tags : List Char
deriving DecidableEq

/-- How a chat turn can fail: the explicit `ValueError("Discussion not
found")`, or an uncaught exception propagating out of the function. -/
inductive ChatErr
  | notFound
  | raised (e : List Char)
deriving DecidableEq

/-- Outcomes of the external calls made by `chat_in_discussion`, in program
order: indexing the user turn, the discussion-context retrieval
(`query_rag`, line 93 — embedding plus vector query), the chat-history
retrieval (`embed_texts` + `query_chat_history`, lines 101-102), the
completion call on the assembled prompt, and indexing the assistant turn.
An `Except.error` models the call raising an exception. -/
structure ChatCalls where
  addUserRag : Except (List Char) Unit
  queryRagDocs : Except (List Char) (List (List (List Char)))
  historyHits : Except (List Char) (List (List Char))
  chatComplete : List Char → Except (List Char) (List Char)
  addAssistantRag : Except (List Char) Unit

/-- `chat_in_discussion` (lines 80-158).  The chat-history retrieval sits in
a `try/except` that degrades to an empty block (lines 100-115); the
discussion-context retrieval `query_rag` (line 93) has no such handler, so
its exceptions propagate. -/
def chat_in_discussion (discussion : Option Discussion) (user_message : List Char)
    (calls : ChatCalls) : Except ChatErr (List Char) :=
  match discussion with
  | none => .error .notFound
  | some _ =>
    match calls.addUserRag with
    | .error e => .error (.raised e)
    | .ok _ =>
      match calls.queryRagDocs with
      | .error e => .error (.raised e)
      | .ok docs =>
        let discussion_context := match docs with
          | [] => []
          | d0 :: _ => joinSep "\n".toList d0
        let chat_history_context := match calls.historyHits with
          | .ok hits => if hits = [] then [] else joinSep "\n".toList hits
          | .error _ => []
        match calls.chatComplete
            (user_content discussion_context chat_history_context user_message) with
        | .error e => .error (.raised e)
        | .ok reply =>
          match calls.addAssistantRag with
          | .error e => .error (.raised e)
          | .ok _ => .ok reply

/-- `start_discussion` (lines 46-53) stores `",".join(tags)`. -/
def start_discussion_tags_str (tags : List (List Char)) : List Char :=
  List.intercalate [','] tags

/-- Tag decoding of `get_discussion`/`list_discussions` (lines 29, 42):
`d.tags.split(",") if d.tags else []`. -/
def stored_tags (tags_str : List Char) : List (List Char) :=
  if tags_str = [] then [] else tags_str.splitOn ','

/-! Streaming chat endpoint (src/app.py lines 234-254). -/

/-- One server-sent event emitted by `chat_discussion.generate`. -/
inductive SseEvent
  | heartbeat
  | chunkData (chunk full_text : List Char)
  | doneEvent
  | errorEvent (error ty : List Char)
deriving DecidableEq

/-- How the wrapped generator `ds.chat_in_discussion_stream` behaves: it
yields some `(chunk, full_text)` pairs and then either finishes, raises a
`ValueError`, or raises some other exception. -/
inductive StreamOutcome
  | success (chunks : List (List Char × List Char))
  | failValueError (chunks : List (List Char × List Char)) (msg : List Char)
  | failOther (chunks : List (List Char × List Char))
deriving DecidableEq

/-- The data events for the chunks yielded before any failure. -/
def chunkEvents (chunks : List (List Char × List Char)) : List SseEvent :=
  chunks.map (fun p => .chunkData p.1 p.2)

/-- `generate` (src/app.py lines 234-254): heartbeat, then the chunk
events; on success a final done event; on `ValueError` an error event of
type "validation" (and nothing after it); on any other exception an error
event of type "server" followed by a done event. -/
def chat_discussion_generate (o : StreamOutcome) : List SseEvent :=
  match o with
  | .success cs => .heartbeat :: (chunkEvents cs ++ [.doneEvent])
  | .failValueError cs msg =>
      .heartbeat :: (chunkEvents cs ++ [.errorEvent msg "validation".toList])
  | .failOther cs =>
      .heartbeat :: (chunkEvents cs ++
        [.errorEvent "An error occurred while generating response".toList "server".toList,
         .doneEvent])

/-! Unread/Watermark Tracker (services/unread_service.py). -/

/-- The `unreadstate` table: rows `(contact_id, last_seen_message_id)`. -/
abbrev UnreadDb := List (Nat × Nat)

/-- Update the row for `c` if present, else insert it (a SQLModel
`session.get` + mutate-or-`session.add` round trip). -/
def upsert (st : UnreadDb) (c m : Nat) : UnreadDb :=
  if (List.lookup c st).isSome then
    st.map (fun p => if p.1 = c then (c, m) else p)
  else st ++ [(c, m)]

/-- `_save_unread_state` (lines 66-85): upsert every entry of the dict. -/
def save_unread_state (st : UnreadDb) (upd : List (Nat × Nat)) : UnreadDb :=
  upd.foldl (fun acc p => upsert acc p.1 p.2) st

/-- `mark_contact_as_read` (lines 227-249): update only when
`message_id >= existing.last_seen_message_id`; create the row if absent. -/
def mark_contact_as_read (st : UnreadDb) (contact_id message_id : Nat) : UnreadDb :=
  match List.lookup contact_id st with
  | some cur => if cur ≤ message_id then upsert st contact_id message_id else st
  | none => st ++ [(contact_id, message_id)]

/-- Accumulator of the SQL `MAX` aggregate over rowids. -/
def maxRowidAcc (acc : Option Nat) (m : DbMsg) : Option Nat :=
  match acc with
  | none => some m.rowid
  | some r => some (max r m.rowid)

/-- `SELECT MAX(m.ROWID) ... WHERE ... m.text IS NOT NULL` (lines 107-112):
`none` models the NULL aggregate over an empty selection. -/
def sqlMaxTextRowid (msgs : List DbMsg) : Option Nat :=
  (msgs.filter (fun m => m.text.isSome)).foldl maxRowidAcc none

/-- The WHERE clause of the unread query (lines 187-199): non-NULL text,
incoming, ROWID strictly above the watermark. -/
def unreadFilter (last_seen : Nat) (m : DbMsg) : Bool :=
  m.text.isSome && !m.is_from_me && decide (last_seen < m.rowid)

/-- Accumulator of `ORDER BY m.date DESC LIMIT 1`: keep the row with the
later date (the earlier row on ties). -/
def pickLater (acc : Option DbMsg) (m : DbMsg) : Option DbMsg :=
  match acc with
  | none => some m
  | some a => if a.date < m.date then some m else acc

/-- `ORDER BY m.date DESC LIMIT 1`: the row maximizing `date` (first such
row on ties, which the claims below exclude by a strict-order hypothesis). -/
def latestByDate (msgs : List DbMsg) : Option DbMsg :=
  msgs.foldl pickLater none

/-- The unread query of lines 187-199 for one contact. -/
def sqlLatestUnread (msgs : List DbMsg) (last_seen : Nat) : Option DbMsg :=
  latestByDate (msgs.filter (unreadFilter last_seen))

/-- Python `a or b` on nullable strings: `a` unless it is falsy
(`None` or empty). -/
def py_or : Option (List Char) → Option (List Char) → Option (List Char)
  | some s, b => if s = [] then b else some s
  | none, b => b

/-- An element of the list `get_unread_messages` returns (lines 205-211). -/
structure UnreadRecord where
  contact_id : Nat
  display_name : List Char
  message : List Char
  timestamp : Option (List Char)
  message_id : Nat
deriving DecidableEq

/-- The unread record built from a query row (lines 202-211). -/
def recordOf (iso : Int → Option (List Char)) (c : Chat) (m : DbMsg) : UnreadRecord :=
  { contact_id := c.chat_id
  , display_name := (py_or (py_or c.display_name m.handle) (some "Unknown".toList)).getD []
  , message := m.text.getD []
  , timestamp := iso m.date
  , message_id := m.rowid }

/-- One iteration of the per-contact loop of `get_unread_messages`
(lines 163-211).  A contact without a watermark is initialized to its
current max id and skipped; a contact with one contributes at most the
latest unread row.  The two silent fall-through branches correspond to a
`KeyError` in the source, unreachable for stores whose ROWIDs are
positive (every listed contact has a text message, so the MAX is a
positive rowid). -/
def contact_step (iso : Int → Option (List Char)) (c : Chat)
    (acc : List UnreadRecord × UnreadDb) : List UnreadRecord × UnreadDb :=
  let (recs, st) := acc
  match List.lookup c.chat_id st with
  | none =>
    match sqlMaxTextRowid c.messages with
    | some r => if r ≠ 0 then (recs, upsert st c.chat_id r) else (recs, st)
    | none => (recs, st)
  | some last_seen =>
    match sqlLatestUnread c.messages last_seen with
    | some m => (recs ++ [recordOf iso c m], st)
    | none => (recs, st)

/-- The records the unread query contributes for chat `c` at watermark
`w`: one for the latest unread row, none when there is none. -/
def chQueryRecs (iso : Int → Option (List Char)) (c : Chat) (w : Nat) :
    List UnreadRecord :=
  match sqlLatestUnread c.messages w with
  | some m => [recordOf iso c m]
  | none => []

/-- The records the step for chat `c` appends, as a function of the
current watermark table. -/
def stepRecs (iso : Int → Option (List Char)) (c : Chat) (st : UnreadDb) :
    List UnreadRecord :=
  match List.lookup c.chat_id st with
  | none => []
  | some last_seen => chQueryRecs iso c last_seen

/-- The per-contact loop of lines 163-211 as a fold. -/
def unread_fold (iso : Int → Option (List Char)) (l : List Chat)
    (acc : List UnreadRecord × UnreadDb) : List UnreadRecord × UnreadDb :=
  l.foldl (fun a c => contact_step iso c a) acc

/-- Lexicographic comparison of character lists (by code point). -/
def lexLe : List Char → List Char → Bool
  | [], _ => true
  | _ :: _, [] => false
  | a :: as, b :: bs => if a < b then true else if b < a then false else lexLe as bs

/-- Order on the optional timestamps used as the sort key. -/
def tsLe (a b : Option (List Char)) : Bool :=
  match a, b with
  | none, _ => true
  | some _, none => false
  | some x, some y => lexLe x y

/-- `unread_messages.sort(key=..., reverse=True)` (line 216): stable sort,
newest timestamp first. -/
def sortRecsByTsDesc (recs : List UnreadRecord) : List UnreadRecord :=
  List.insertionSort (fun a b => tsLe b.timestamp a.timestamp = true) recs

/-- The watermark row the initialization loop produces for one contact:
present when the MAX aggregate is truthy (non-NULL and non-zero). -/
def init_row (c : Chat) : Option (Nat × Nat) :=
  match sqlMaxTextRowid c.messages with
  | some r => if r ≠ 0 then some (c.chat_id, r) else none
  | none => none

/-- `_initialize_state_with_current_messages` (lines 87-126): one row per
listed contact at its current MAX text rowid (skipped when the aggregate is
NULL or 0, both falsy in the source). -/
def initialize_state_with_current_messages (store : List Chat) : List (Nat × Nat) :=
  (list_contacts store).filterMap init_row

/-- The sync loop body of `sync_new_messages_to_rag` (lines 305-352) for
one contact: all messages (both directions) with non-NULL text and ROWID
above the watermark, ordered by date, deduplicated against the existing
ids.  Note the id is computed from the raw (unstripped) text. -/
def sync_entries_for_contact (hash : List Char → List Char)
    (iso : Int → Option (List Char)) (existing : List (List Char))
    (st : UnreadDb) (c : Chat) : List RagEntry :=
  match List.lookup c.chat_id st with
  | none => []
  | some last_seen =>
    (sortByDateAsc (c.messages.filter
        (fun m => m.text.isSome && decide (last_seen < m.rowid)))).filterMap
      (fun m =>
        let text := m.text.getD []
        let ts := pyOptStr (iso m.date)
        let msg_id_str := create_message_id hash (Nat.toDigits 10 c.chat_id) ts text
        if msg_id_str ∈ existing then none
        else some { id := msg_id_str, doc := normalize_msg ts m.is_from_me text })

/-- `sync_new_messages_to_rag` (lines 276-386): skipped entirely when the
watermark table is empty; otherwise produces the new documents.  The
function reads the watermark table and never writes it. -/
def sync_new_messages_to_rag (hash : List Char → List Char)
    (iso : Int → Option (List Char)) (store : List Chat) (st : UnreadDb)
    (existing : List (List Char)) : List RagEntry :=
  if st = [] then []
  else (list_contacts store).flatMap (sync_entries_for_contact hash iso existing st)

/-- The full effect of one `get_unread_messages` call: the returned
records, the watermark table afterwards, and the documents the embedded
RAG sync adds to the Vector Index Store. -/
structure UnreadResult where
  records : List UnreadRecord
  state : UnreadDb
  ragAdds : List RagEntry
deriving DecidableEq

/-- `get_unread_messages` (lines 128-225).  An empty watermark table takes
the bootstrap path (lines 149-156): initialize every contact and return
early, before the RAG sync.  Otherwise run the per-contact loop, sort the
records newest-first, and run `sync_new_messages_to_rag` on the updated
table. -/
def get_unread_messages (hash : List Char → List Char)
    (iso : Int → Option (List Char)) (store : List Chat) (st0 : UnreadDb)
    (existing : List (List Char)) : UnreadResult :=
  if st0 = [] then
    { records := []
    , state := save_unread_state [] (initialize_state_with_current_messages store)
    , ragAdds := [] }
  else
    { records := sortRecsByTsDesc (unread_fold iso (list_contacts store) ([], st0)).1
    , state := (unread_fold iso (list_contacts store) ([], st0)).2
    , ragAdds := sync_new_messages_to_rag hash iso store
        (unread_fold iso (list_contacts store) ([], st0)).2 existing }

/-! Helper lemmas about the watermark table. -/

theorem lookup_cons_self (t : UnreadDb) (c v : Nat) :
    List.lookup c ((c, v) :: t) = some v := by
  simp [List.lookup]

theorem lookup_cons_ne (t : UnreadDb) (k w c : Nat) (h : c ≠ k) :
    List.lookup c ((k, w) :: t) = List.lookup c t := by
  have hb : (c == k) = false := beq_eq_false_iff_ne.2 h
  simp [List.lookup, hb]

theorem lookup_eq_none_of_not_mem_keys (c : Nat) :
    ∀ l : UnreadDb, c ∉ l.map Prod.fst → List.lookup c l = none := by
  intro l
  induction l with
  | nil => intro _; rfl
  | cons p t ih =>
    obtain ⟨k, w⟩ := p
    intro h
    rw [List.map_cons, List.mem_cons] at h
    push_neg at h
    rw [lookup_cons_ne t k w c h.1]
    exact ih h.2

theorem lookup_some_mem (c v : Nat) :
    ∀ l : UnreadDb, List.lookup c l = some v → (c, v) ∈ l := by
  intro l
  induction l with
  | nil => intro h; simp [List.lookup] at h
  | cons p t ih =>
    obtain ⟨k, w⟩ := p
    intro h
    by_cases hc : c = k
    · subst hc
      rw [lookup_cons_self] at h
      rw [Option.some_inj] at h
      subst h
      exact List.mem_cons_self _ _
    · rw [lookup_cons_ne t k w c hc] at h
      exact List.mem_cons_of_mem _ (ih h)

theorem lookup_of_mem_keys_nodup (c v : Nat) :
    ∀ l : UnreadDb, (l.map Prod.fst).Nodup → (c, v) ∈ l → List.lookup c l = some v := by
  intro l
  induction l with
  | nil => intro _ h; simp at h
  | cons p t ih =>
    obtain ⟨k, w⟩ := p
    intro hnd hm
    rw [List.map_cons, List.nodup_cons] at hnd
    rcases List.mem_cons.1 hm with h | h
    · rw [Prod.mk.injEq] at h
      rw [h.1, h.2, lookup_cons_self]
    · have hc : c ≠ k := by
        intro hc
        rw [hc] at h
        exact hnd.1 (List.mem_map.2 ⟨(k, v), h, rfl⟩)
      rw [lookup_cons_ne t k w c hc]
      exact ih hnd.2 h

theorem lookup_ne_nil_of_some (st : UnreadDb) (c v : Nat)
    (h : List.lookup c st = some v) : st ≠ [] := by
  intro hnil; subst hnil; simp [List.lookup] at h

theorem lookup_append_single_self (c m : Nat) :
    ∀ st : UnreadDb, List.lookup c st = none → List.lookup c (st ++ [(c, m)]) = some m := by
  intro st
  induction st with
  | nil => intro _; simp [List.lookup]
  | cons p t ih =>
    obtain ⟨k, w⟩ := p
    intro h
    by_cases hc : c = k
    · subst hc; rw [lookup_cons_self] at h; exact absurd h (by simp)
    · rw [lookup_cons_ne t k w c hc] at h
      rw [List.cons_append, lookup_cons_ne _ k w c hc]
      exact ih h

theorem lookup_append_single_ne (c m c2 : Nat) (h : c2 ≠ c) :
    ∀ st : UnreadDb, List.lookup c2 (st ++ [(c, m)]) = List.lookup c2 st := by
  intro st
  induction st with
  | nil =>
    have hb : (c2 == c) = false := beq_eq_false_iff_ne.2 h
    simp [List.lookup, hb]
  | cons p t ih =>
    obtain ⟨k, w⟩ := p
    by_cases hc : c2 = k
    · subst hc; rw [List.cons_append, lookup_cons_self, lookup_cons_self]
    · rw [List.cons_append, lookup_cons_ne _ k w c2 hc, lookup_cons_ne t k w c2 hc]
      exact ih

theorem lookup_map_update_self (c m : Nat) :
    ∀ st : UnreadDb, (List.lookup c st).isSome →
      List.lookup c (st.map (fun p => if p.1 = c then (c, m) else p)) = some m := by
  intro st
  induction st with
  | nil => intro hs; simp [List.lookup] at hs
  | cons p t ih =>
    obtain ⟨k, w⟩ := p
    intro hs
    by_cases hc : k = c
    · subst hc
      simp only [List.map_cons, if_pos rfl]
      exact lookup_cons_self _ k m
    · rw [List.map_cons]
      rw [if_neg (by simpa using hc)]
      rw [lookup_cons_ne _ k w c (fun hck => hc hck.symm)]
      apply ih
      rw [lookup_cons_ne t k w c (fun hck => hc hck.symm)] at hs
      exact hs

theorem lookup_map_update_ne (c m c2 : Nat) (h : c2 ≠ c) :
    ∀ st : UnreadDb,
      List.lookup c2 (st.map (fun p => if p.1 = c then (c, m) else p)) = List.lookup c2 st := by
  intro st
  induction st with
  | nil => simp
  | cons p t ih =>
    obtain ⟨k, w⟩ := p
    rw [List.map_cons]
    by_cases hc : k = c
    · rw [if_pos (by simpa using hc)]
      rw [lookup_cons_ne _ c m c2 h, lookup_cons_ne t k w c2 (by rw [hc]; exact h)]
      exact ih
    · rw [if_neg (by simpa using hc)]
      by_cases hc2 : c2 = k
      · subst hc2; rw [lookup_cons_self, lookup_cons_self]
      · rw [lookup_cons_ne _ k w c2 hc2, lookup_cons_ne t k w c2 hc2]
        exact ih

theorem lookup_upsert_self (st : UnreadDb) (c m : Nat) :
    List.lookup c (upsert st c m) = some m := by
  unfold upsert
  by_cases hs : (List.lookup c st).isSome
  · rw [if_pos hs]; exact lookup_map_update_self c m st hs
  · rw [if_neg hs]
    rw [Option.not_isSome_iff_eq_none] at hs
    exact lookup_append_single_self c m st hs

theorem lookup_upsert_ne (st : UnreadDb) (c m c2 : Nat) (h : c2 ≠ c) :
    List.lookup c2 (upsert st c m) = List.lookup c2 st := by
  unfold upsert
  by_cases hs : (List.lookup c st).isSome
  · rw [if_pos hs]; exact lookup_map_update_ne c m c2 h st
  · rw [if_neg hs]; exact lookup_append_single_ne c m c2 h st

theorem lookup_mark_self (st : UnreadDb) (c m cur : Nat)
    (h : List.lookup c st = some cur) :
    List.lookup c (mark_contact_as_read st c m) = some (max cur m) := by
  unfold mark_contact_as_read
  rw [h]
  dsimp only
  by_cases hle : cur ≤ m
  · rw [if_pos hle, lookup_upsert_self, Nat.max_eq_right hle]
  · rw [if_neg hle, h, Nat.max_eq_left (Nat.le_of_not_le hle)]

theorem lookup_mark_self_new (st : UnreadDb) (c m : Nat)
    (h : List.lookup c st = none) :
    List.lookup c (mark_contact_as_read st c m) = some m := by
  unfold mark_contact_as_read
  rw [h]
  dsimp only
  exact lookup_append_single_self c m st h

theorem lookup_mark_ne (st : UnreadDb) (c m c2 : Nat) (h : c2 ≠ c) :
    List.lookup c2 (mark_contact_as_read st c m) = List.lookup c2 st := by
  unfold mark_contact_as_read
  cases hl : List.lookup c st with
  | none =>
    dsimp only
    exact lookup_append_single_ne c m c2 h st
  | some cur =>
    dsimp only
    by_cases hle : cur ≤ m
    · rw [if_pos hle]; exact lookup_upsert_ne st c m c2 h
    · rw [if_neg hle]

/-- Claim C3: the watermark is monotonically non-decreasing per contact.
`mark_contact_as_read` sets the row for `c` to `max(current, message_id)`
(a call with a lower id changes nothing, as the 5-then-3 conjunct shows),
creates the row with the given id when the contact has none, and leaves
every other contact's row untouched. -/
theorem mark_as_read_watermark_monotone (st : UnreadDb) (c m : Nat) :
    (∀ cur, List.lookup c st = some cur →
       List.lookup c (mark_contact_as_read st c m) = some (max cur m)) ∧
    (List.lookup c st = none →
       List.lookup c (mark_contact_as_read st c m) = some m) ∧
    (∀ c2, c2 ≠ c →
       List.lookup c2 (mark_contact_as_read st c m) = List.lookup c2 st) ∧
    mark_contact_as_read (mark_contact_as_read st c 5) c 3 = mark_contact_as_read st c 5 := by
  refine ⟨fun cur h => lookup_mark_self st c m cur h,
          fun h => lookup_mark_self_new st c m h,
          fun c2 h => lookup_mark_ne st c m c2 h, ?_⟩
  have h5 : ∃ v, List.lookup c (mark_contact_as_read st c 5) = some v ∧ 5 ≤ v := by
    cases hl : List.lookup c st with
    | none => exact ⟨5, lookup_mark_self_new st c 5 hl, le_refl 5⟩
    | some cur =>
      exact ⟨max cur 5, lookup_mark_self st c 5 cur hl, Nat.le_max_right cur 5⟩
  obtain ⟨v, hv, hv5⟩ := h5
  set A := mark_contact_as_read st c 5 with hA
  unfold mark_contact_as_read
  rw [hv]
  dsimp only
  rw [if_neg (by omega)]

/-- Witness for C3 at a concrete table: a row `(1, 7)` marked with id 9
moves to `max 7 9`, an absent contact 2 gets a fresh row, and contact 3 is
untouched. -/
theorem mark_as_read_watermark_monotone_witness :
    (List.lookup 1 [(1, 7)] = some 7 ∧
       List.lookup 1 (mark_contact_as_read [(1, 7)] 1 9) = some (max 7 9)) ∧
    (List.lookup 2 [(1, 7)] = none ∧
       List.lookup 2 (mark_contact_as_read [(1, 7)] 2 4) = some 4) ∧
    ((3 : Nat) ≠ 1 ∧
       List.lookup 3 (mark_contact_as_read [(1, 7)] 1 9) = List.lookup 3 [(1, 7)]) :=
  ⟨⟨by decide, (mark_as_read_watermark_monotone [(1, 7)] 1 9).1 7 (by decide)⟩,
   ⟨by decide, (mark_as_read_watermark_monotone [(1, 7)] 2 4).2.1 (by decide)⟩,
   ⟨by decide, (mark_as_read_watermark_monotone [(1, 7)] 1 9).2.2.1 3 (by decide)⟩⟩

/-- Core idempotence lemma: when the second run sees the complete id set
(the prior ids plus everything the first run inserted), it computes the
same deterministic id for every message, finds each id present, and
inserts nothing.  Claim C1 builds on this; whether the second run actually
sees the complete set is decided by the `get_existing_message_ids`
truncation below. -/
theorem import_incremental_idempotent (hash : List Char → List Char)
    (iso : Int → Option (List Char)) (existing : List (List Char)) (store : List Chat) :
    import_imessage_history_from_db hash iso true
      (existing ++
        (import_imessage_history_from_db hash iso true existing store).map RagEntry.id)
      store = [] := by
  unfold import_imessage_history_from_db
  rw [List.flatMap_eq_nil_iff]
  intro c hc
  unfold import_entries_for_contact
  rw [List.filterMap_eq_nil_iff]
  intro msg hmsg
  dsimp only
  by_cases htext : pyStrip msg.text = []
  · rw [if_pos htext]
  · rw [if_neg htext]
    by_cases hmem : create_message_id hash (Nat.toDigits 10 c.chat_id)
        (pyOptStr msg.timestamp) (pyStrip msg.text) ∈ existing
    · rw [if_pos ⟨rfl, List.mem_append_left _ hmem⟩]
    · have hrun : create_message_id hash (Nat.toDigits 10 c.chat_id)
          (pyOptStr msg.timestamp) (pyStrip msg.text) ∈
          (import_imessage_history_from_db hash iso true existing store).map RagEntry.id := by
        apply List.mem_map.2
        refine ⟨{ id := create_message_id hash (Nat.toDigits 10 c.chat_id)
                    (pyOptStr msg.timestamp) (pyStrip msg.text)
                , doc := normalize_msg (pyOptStr msg.timestamp) msg.role_user
                    (pyStrip msg.text) }, ?_, rfl⟩
        unfold import_imessage_history_from_db
        apply List.mem_flatMap.2
        refine ⟨c, hc, ?_⟩
        unfold import_entries_for_contact
        apply List.mem_filterMap.2
        refine ⟨msg, hmsg, ?_⟩
        dsimp only
        rw [if_neg htext, if_neg (fun hand => hmem hand.2)]
      rw [if_pos ⟨rfl, List.mem_append_right _ hrun⟩]

/-- Claim C1 (counterexample): the claimed idempotence fails once the
Vector Index Store holds more than 100000 documents.  With 100000 ids
already indexed, the first incremental run over a one-message source
inserts the message's document (100001 ids total); the second run's
`get_existing_message_ids` call truncates the listing back to the first
100000 ids, the new message's id is not among them, and the run inserts
the same document again. -/
theorem import_second_run_reinserts_beyond_limit :
    import_imessage_history_from_db (fun s => s) (fun _ => none) true
      (get_existing_message_ids
        (bigIdSet ++
          (import_imessage_history_from_db (fun s => s) (fun _ => none) true
            (get_existing_message_ids bigIdSet) oneHelloStore).map RagEntry.id))
      oneHelloStore ≠ [] := by
  have hlen : bigIdSet.length = 100000 := by
    unfold bigIdSet
    rw [List.length_map, List.length_range]
  have hid_not : create_message_id (fun s => s) (Nat.toDigits 10 1) (pyOptStr none)
      (pyStrip "hello".toList) ∉ bigIdSet := by
    intro hmem
    unfold bigIdSet at hmem
    obtain ⟨i, _, hi⟩ := List.mem_map.1 hmem
    have hhead := congrArg List.head? hi
    rw [show (create_message_id (fun s => s) (Nat.toDigits 10 1) (pyOptStr none)
        (pyStrip "hello".toList)).head? = some '1' from rfl,
        List.head?_cons, Option.some_inj] at hhead
    exact absurd hhead (by decide)
  have htake : ∀ tail : List (List Char),
      get_existing_message_ids (bigIdSet ++ tail) = bigIdSet := by
    intro tail
    unfold get_existing_message_ids
    rw [← hlen, List.take_left]
  rw [htake]
  have hmem : ({ id := create_message_id (fun s => s) (Nat.toDigits 10 1) (pyOptStr none)
                   (pyStrip "hello".toList)
               , doc := normalize_msg (pyOptStr none) false (pyStrip "hello".toList) } :
      RagEntry) ∈
      import_imessage_history_from_db (fun s => s) (fun _ => none) true bigIdSet
        oneHelloStore := by
    unfold import_imessage_history_from_db
    apply List.mem_flatMap.2
    refine ⟨⟨1, none, [⟨1, some "hello".toList, 1, false, none⟩]⟩, by decide, ?_⟩
    unfold import_entries_for_contact
    apply List.mem_filterMap.2
    refine ⟨⟨false, "hello".toList, none⟩, by decide, ?_⟩
    dsimp only
    rw [if_neg (by decide : ¬ pyStrip "hello".toList = [])]
    rw [if_neg (fun hand => hid_not hand.2)]
  exact List.ne_nil_of_mem hmem

/-- Claim C1 (amended): running the History Importer twice in incremental
mode with no source change inserts zero new documents the second time,
provided the Vector Index Store holds at most 100000 documents after the
first run — the bound at which `get_existing_message_ids` truncates its id
listing.  Within the bound the second run sees every id, computes the same
deterministic id for every message, finds each one, and adds nothing. -/
theorem import_incremental_idempotent_within_limit (hash : List Char → List Char)
    (iso : Int → Option (List Char)) (rag0 : List (List Char)) (store : List Chat)
    (hbound : (rag0 ++ (import_imessage_history_from_db hash iso true
        (get_existing_message_ids rag0) store).map RagEntry.id).length ≤ 100000) :
    import_imessage_history_from_db hash iso true
      (get_existing_message_ids
        (rag0 ++ (import_imessage_history_from_db hash iso true
          (get_existing_message_ids rag0) store).map RagEntry.id))
      store = [] := by
  have h0 : rag0.length ≤ 100000 := by
    rw [List.length_append] at hbound
    omega
  have hr0 : get_existing_message_ids rag0 = rag0 := by
    unfold get_existing_message_ids
    exact List.take_of_length_le h0
  rw [hr0] at hbound ⊢
  unfold get_existing_message_ids
  rw [List.take_of_length_le hbound]
  exact import_incremental_idempotent hash iso rag0 store

/-- Witness for the amended C1 at a small store that stays far under the
100000-document bound. -/
theorem import_incremental_idempotent_within_limit_witness :
    ((["x".toList] ++ (import_imessage_history_from_db (fun s => s) (fun _ => none) true
        (get_existing_message_ids ["x".toList]) oneHelloStore).map RagEntry.id).length ≤
      100000) ∧
    import_imessage_history_from_db (fun s => s) (fun _ => none) true
      (get_existing_message_ids
        (["x".toList] ++ (import_imessage_history_from_db (fun s => s) (fun _ => none) true
          (get_existing_message_ids ["x".toList]) oneHelloStore).map RagEntry.id))
      oneHelloStore = [] :=
  ⟨by decide,
   import_incremental_idempotent_within_limit (fun s => s) (fun _ => none) ["x".toList]
     oneHelloStore (by decide)⟩

/-- Claim C2 (code bug): the History Importer computes the message id from
the stripped text (`rag_imessage_import.py` lines 64 and 73), while the
unread-check's RAG sync computes it from the raw text
(`unread_service.py` lines 330-334).  For a message whose text carries
leading or trailing whitespace the two strings fed to the hash differ, so
the two ids differ (shown with the digest modelled as the identity
function), and the sync's existing-id skip misses a message the importer
already indexed. -/
theorem import_and_sync_ids_diverge_on_whitespace :
    id_hash_input "1".toList "2024-01-01T00:00:00Z".toList (pyStrip " hi".toList) ≠
      id_hash_input "1".toList "2024-01-01T00:00:00Z".toList " hi".toList ∧
    create_message_id (fun s => s) "1".toList "2024-01-01T00:00:00Z".toList
        (pyStrip " hi".toList) ≠
      create_message_id (fun s => s) "1".toList "2024-01-01T00:00:00Z".toList
        " hi".toList := by
  constructor <;> decide

/-- Claim C7 (code bug): `chat_in_discussion` wraps the chat-history
retrieval in a `try/except` that degrades to an empty context block, but
the discussion-context retrieval `query_rag` (discussions_service.py line
93) has no handler, so an embedding or query failure there propagates and
aborts the chat turn instead of completing it with an empty block — while
the same failure in the chat-history retrieval lets the turn complete. -/
theorem discussion_retrieval_failure_aborts_turn :
    chat_in_discussion (some { id := "d1".toList, title := "t".toList, tags := [] })
        "hello".toList
        { addUserRag := .ok ()
        , queryRagDocs := .error "embedding failure".toList
        , historyHits := .ok ["[2024-01-01T00:00:00Z] IN: hey".toList]
        , chatComplete := fun _ => .ok "model reply".toList
        , addAssistantRag := .ok () } =
      .error (.raised "embedding failure".toList) ∧
    chat_in_discussion (some { id := "d1".toList, title := "t".toList, tags := [] })
        "hello".toList
        { addUserRag := .ok ()
        , queryRagDocs := .ok [["doc one".toList]]
        , historyHits := .error "embedding failure".toList
        , chatComplete := fun _ => .ok "model reply".toList
        , addAssistantRag := .ok () } =
      .ok "model reply".toList :=
  ⟨rfl, rfl⟩

/-- Claim C8 (code bug): the streaming endpoint's `generate` guarantees a
terminal done event on the success and generic-exception paths, but the
`ValueError` path (app.py lines 245-248, hit for an unknown discussion)
emits only the validation error event and ends the stream with no
`{done: true}` after it. -/
theorem stream_valueerror_path_lacks_done :
    chat_discussion_generate (.failValueError [] "Discussion not found".toList) =
      [.heartbeat, .errorEvent "Discussion not found".toList "validation".toList] ∧
    SseEvent.doneEvent ∉
      chat_discussion_generate (.failValueError [] "Discussion not found".toList) ∧
    (chat_discussion_generate (.success [("Hi".toList, "Hi".toList)])).getLast? =
      some .doneEvent ∧
    (chat_discussion_generate (.failOther [("Hi".toList, "Hi".toList)])).getLast? =
      some .doneEvent :=
  ⟨rfl, by decide, rfl, rfl⟩

/-- Claim C9 (corrected): the claimed shape is false — on a 4000-character
context the source keeps the last 2997 characters, not the last 3000: the
3000-character budget includes the 3-character ellipsis marker. -/
theorem truncation_is_not_marker_plus_last_3000 :
    truncate_context (List.replicate 4000 'a') MAX_DISCUSSION_CONTEXT_LENGTH ≠
      "...".toList ++ (List.replicate 4000 'a').drop (4000 - 3000) := by
  intro h
  have hl := congrArg List.length h
  rw [truncate_context,
      if_neg (by rw [List.length_replicate]; unfold MAX_DISCUSSION_CONTEXT_LENGTH; omega),
      List.length_append, List.length_append, List.length_drop, List.length_drop,
      List.length_replicate, show ("...".toList).length = 3 from rfl] at hl
  unfold MAX_DISCUSSION_CONTEXT_LENGTH at hl
  omega

/-- Claim C9 (amended): `_truncate_context` is tail-preserving with the
stated budgets, with the result capped at the budget itself: a
4000-character discussion context becomes the ellipsis marker followed by
the last 2997 characters (3000 characters in total), and a string at or
under its budget (3000 for discussion context, 5000 for chat history)
passes through unchanged. -/
theorem truncation_keeps_tail_within_budget (s t u : List Char)
    (hs : s.length = 4000)
    (ht : t.length ≤ MAX_DISCUSSION_CONTEXT_LENGTH)
    (hu : u.length ≤ MAX_CHAT_HISTORY_CONTEXT_LENGTH) :
    truncate_context s MAX_DISCUSSION_CONTEXT_LENGTH =
      "...".toList ++ s.drop (s.length - 2997) ∧
    (truncate_context s MAX_DISCUSSION_CONTEXT_LENGTH).length = 3000 ∧
    truncate_context t MAX_DISCUSSION_CONTEXT_LENGTH = t ∧
    truncate_context u MAX_CHAT_HISTORY_CONTEXT_LENGTH = u := by
  refine ⟨?_, ?_, ?_, ?_⟩
  · rw [truncate_context,
        if_neg (by rw [hs]; unfold MAX_DISCUSSION_CONTEXT_LENGTH; omega)]
    unfold MAX_DISCUSSION_CONTEXT_LENGTH
    norm_num
  · rw [truncate_context,
        if_neg (by rw [hs]; unfold MAX_DISCUSSION_CONTEXT_LENGTH; omega),
        List.length_append, List.length_drop, hs,
        show ("...".toList).length = 3 from rfl]
    unfold MAX_DISCUSSION_CONTEXT_LENGTH
    omega
  · rw [truncate_context, if_pos ht]
  · rw [truncate_context, if_pos hu]

/-- Witness for the amended C9 at concrete strings. -/
theorem truncation_keeps_tail_within_budget_witness :
    (List.replicate 4000 'a').length = 4000 ∧
    ("ab".toList).length ≤ MAX_DISCUSSION_CONTEXT_LENGTH ∧
    (([] : List Char)).length ≤ MAX_CHAT_HISTORY_CONTEXT_LENGTH ∧
    (truncate_context (List.replicate 4000 'a') MAX_DISCUSSION_CONTEXT_LENGTH =
       "...".toList ++ (List.replicate 4000 'a').drop ((List.replicate 4000 'a').length - 2997) ∧
     (truncate_context (List.replicate 4000 'a') MAX_DISCUSSION_CONTEXT_LENGTH).length = 3000 ∧
     truncate_context "ab".toList MAX_DISCUSSION_CONTEXT_LENGTH = "ab".toList ∧
     truncate_context ([] : List Char) MAX_CHAT_HISTORY_CONTEXT_LENGTH = ([] : List Char)) :=
  ⟨List.length_replicate _ _, by decide, by decide,
   truncation_keeps_tail_within_budget (List.replicate 4000 'a') "ab".toList []
     (List.length_replicate _ _) (by decide) (by decide)⟩

/-- Claim C10: tags round-trip through comma-joined storage exactly when
every tag is non-empty and comma-free (including the empty tag list); a
tag containing a comma comes back split at the comma. -/
theorem tags_roundtrip_with_comma_caveat :
    (∀ tags : List (List Char), (∀ t ∈ tags, t ≠ [] ∧ ',' ∉ t) →
       stored_tags (start_discussion_tags_str tags) = tags) ∧
    stored_tags (start_discussion_tags_str ["a,b".toList]) ≠ ["a,b".toList] ∧
    stored_tags (start_discussion_tags_str ["a,b".toList]) =
      ["a".toList, "b".toList] := by
  refine ⟨?_, by decide, by decide⟩
  intro tags htags
  cases tags with
  | nil => simp [start_discussion_tags_str, stored_tags, List.intercalate]
  | cons t ts =>
    have hne : List.intercalate [','] (t :: ts) ≠ [] := by
      cases ts <;>
        simp [List.intercalate, List.intersperse, (htags t (List.mem_cons_self t _)).1]
    rw [start_discussion_tags_str, stored_tags, if_neg hne]
    exact List.splitOn_intercalate (t :: ts) ',' (fun l hl => (htags l hl).2) (by simp)

/-- Witness for C10's universally quantified round-trip at a concrete
tag list. -/
theorem tags_roundtrip_with_comma_caveat_witness :
    (∀ t ∈ ["alpha".toList, "beta".toList], t ≠ [] ∧ ',' ∉ t) ∧
    stored_tags (start_discussion_tags_str ["alpha".toList, "beta".toList]) =
      ["alpha".toList, "beta".toList] :=
  ⟨by decide, tags_roundtrip_with_comma_caveat.1 ["alpha".toList, "beta".toList] (by decide)⟩

/-! Lemmas about the SQL aggregates. -/

theorem pickLater_go (l : List DbMsg) : ∀ a : DbMsg,
    ∃ m, l.foldl pickLater (some a) = some m ∧ (m = a ∨ m ∈ l) ∧
      a.date ≤ m.date ∧ ∀ x ∈ l, x.date ≤ m.date := by
  induction l with
  | nil => intro a; exact ⟨a, rfl, Or.inl rfl, le_refl _, by simp⟩
  | cons x l ih =>
    intro a
    rw [List.foldl_cons]
    by_cases hx : a.date < x.date
    · rw [show pickLater (some a) x = some x by unfold pickLater; dsimp; rw [if_pos hx]]
      obtain ⟨m, hm, hmem, hxa, hall⟩ := ih x
      refine ⟨m, hm, ?_, le_trans (le_of_lt hx) hxa, ?_⟩
      · rcases hmem with h | h
        · exact Or.inr (h ▸ List.mem_cons_self x l)
        · exact Or.inr (List.mem_cons_of_mem x h)
      · intro y hy
        rcases List.mem_cons.1 hy with h | h
        · rw [h]; exact hxa
        · exact hall y h
    · rw [show pickLater (some a) x = some a by unfold pickLater; dsimp; rw [if_neg hx]]
      obtain ⟨m, hm, hmem, hxa, hall⟩ := ih a
      refine ⟨m, hm, ?_, hxa, ?_⟩
      · rcases hmem with h | h
        · exact Or.inl h
        · exact Or.inr (List.mem_cons_of_mem x h)
      · intro y hy
        rcases List.mem_cons.1 hy with h | h
        · rw [h]; exact le_trans (le_of_not_lt hx) hxa
        · exact hall y h

theorem latestByDate_spec (l : List DbMsg) (hne : l ≠ []) :
    ∃ m, latestByDate l = some m ∧ m ∈ l ∧ ∀ x ∈ l, x.date ≤ m.date := by
  cases l with
  | nil => exact absurd rfl hne
  | cons x l =>
    unfold latestByDate
    rw [List.foldl_cons, show pickLater none x = some x from rfl]
    obtain ⟨m, hm, hmem, _, hall⟩ := pickLater_go l x
    refine ⟨m, hm, ?_, ?_⟩
    · rcases hmem with h | h
      · exact h ▸ List.mem_cons_self x l
      · exact List.mem_cons_of_mem x h
    · intro y hy
      rcases List.mem_cons.1 hy with h | h
      · rw [h]
        rcases hmem with hh | hh
        · rw [hh]
        · obtain ⟨m', hm', _, hax, _⟩ := pickLater_go l x
          rw [hm] at hm'
          rw [Option.some_inj] at hm'
          rw [← hm'] at hax
          exact hax
      · exact hall y h

theorem latestByDate_mem (l : List DbMsg) (m : DbMsg) (h : latestByDate l = some m) :
    m ∈ l := by
  cases l with
  | nil => exact absurd h (by simp [latestByDate])
  | cons x l =>
    obtain ⟨m', hm', hmem', _⟩ := latestByDate_spec (x :: l) (by simp)
    rw [h] at hm'
    rw [Option.some_inj] at hm'
    rw [hm']
    exact hmem'

theorem pairwise_total {α : Type} (P : α → α → Prop) :
    ∀ l : List α, l.Pairwise P → ∀ x ∈ l, ∀ y ∈ l, x = y ∨ P x y ∨ P y x := by
  intro l
  induction l with
  | nil => intro _ x hx; simp at hx
  | cons a l ih =>
    intro hp x hx y hy
    rw [List.pairwise_cons] at hp
    rcases List.mem_cons.1 hx with hxa | hxl
    · rcases List.mem_cons.1 hy with hya | hyl
      · exact Or.inl (hxa.trans hya.symm)
      · exact Or.inr (Or.inl (hxa ▸ hp.1 y hyl))
    · rcases List.mem_cons.1 hy with hya | hyl
      · exact Or.inr (Or.inr (hya ▸ hp.1 x hxl))
      · exact ih hp.2 x hxl y hyl

theorem unreadFilter_iff (w : Nat) (m : DbMsg) :
    unreadFilter w m = true ↔
      m.text.isSome = true ∧ m.is_from_me = false ∧ w < m.rowid := by
  unfold unreadFilter
  rw [Bool.and_eq_true, Bool.and_eq_true, Bool.not_eq_true', decide_eq_true_eq, and_assoc]

theorem sqlLatestUnread_found (msgs : List DbMsg) (w : Nat)
    (hsorted : msgs.Pairwise (fun a b => a.rowid < b.rowid ∧ a.date < b.date))
    (m0 : DbMsg) (hm0 : m0 ∈ msgs) (hf : unreadFilter w m0 = true) :
    ∃ mS, sqlLatestUnread msgs w = some mS ∧ mS ∈ msgs ∧ unreadFilter w mS = true ∧
      ∀ m ∈ msgs, unreadFilter w m = true → m.rowid ≤ mS.rowid := by
  have hmem0 : m0 ∈ msgs.filter (unreadFilter w) := List.mem_filter.2 ⟨hm0, hf⟩
  obtain ⟨mS, hlbd, hmem, hmax⟩ :=
    latestByDate_spec (msgs.filter (unreadFilter w)) (List.ne_nil_of_mem hmem0)
  have hmemS := List.mem_filter.1 hmem
  refine ⟨mS, hlbd, hmemS.1, hmemS.2, ?_⟩
  intro m hm hfm
  have hmf : m ∈ msgs.filter (unreadFilter w) := List.mem_filter.2 ⟨hm, hfm⟩
  have hpw : (msgs.filter (unreadFilter w)).Pairwise
      (fun a b => a.rowid < b.rowid ∧ a.date < b.date) :=
    hsorted.sublist (List.filter_sublist msgs)
  rcases pairwise_total _ _ hpw m hmf mS hmem with h | h | h
  · exact le_of_eq (congrArg DbMsg.rowid h)
  · exact le_of_lt h.1
  · exact absurd (hmax m hmf) (not_le_of_lt h.2)

theorem sqlLatestUnread_none_of (msgs : List DbMsg) (w : Nat)
    (h : ∀ m ∈ msgs, ¬ unreadFilter w m = true) :
    sqlLatestUnread msgs w = none := by
  unfold sqlLatestUnread
  rw [List.filter_eq_nil_iff.2 h]
  rfl

theorem maxRowidAcc_go (l : List DbMsg) : ∀ r : Nat,
    ∃ s, l.foldl maxRowidAcc (some r) = some s ∧
      (s = r ∨ ∃ m ∈ l, m.rowid = s) ∧ r ≤ s ∧ ∀ m ∈ l, m.rowid ≤ s := by
  induction l with
  | nil => intro r; exact ⟨r, rfl, Or.inl rfl, le_refl _, by simp⟩
  | cons x l ih =>
    intro r
    rw [List.foldl_cons, show maxRowidAcc (some r) x = some (max r x.rowid) from rfl]
    obtain ⟨s, hs, hmem, hle, hall⟩ := ih (max r x.rowid)
    refine ⟨s, hs, ?_, le_trans (Nat.le_max_left _ _) hle, ?_⟩
    · rcases hmem with h | h
      · by_cases hrx : r ≤ x.rowid
        · exact Or.inr ⟨x, List.mem_cons_self x l, (h.trans (Nat.max_eq_right hrx)).symm⟩
        · exact Or.inl (h.trans (Nat.max_eq_left (Nat.le_of_not_le hrx)))
      · obtain ⟨m, hml, hmr⟩ := h
        exact Or.inr ⟨m, List.mem_cons_of_mem x hml, hmr⟩
    · intro m hm
      rcases List.mem_cons.1 hm with h | h
      · rw [h]; exact le_trans (Nat.le_max_right _ _) hle
      · exact hall m h

theorem sqlMaxTextRowid_spec (msgs : List DbMsg) (m0 : DbMsg) (hm0 : m0 ∈ msgs)
    (ht0 : m0.text.isSome = true) :
    ∃ s, sqlMaxTextRowid msgs = some s ∧
      (∃ m ∈ msgs, m.rowid = s ∧ m.text.isSome = true) ∧
      ∀ m ∈ msgs, m.text.isSome = true → m.rowid ≤ s := by
  have hmem0 : m0 ∈ msgs.filter (fun m => m.text.isSome) := List.mem_filter.2 ⟨hm0, ht0⟩
  unfold sqlMaxTextRowid
  cases hfl : msgs.filter (fun m => m.text.isSome) with
  | nil => rw [hfl] at hmem0; simp at hmem0
  | cons x fl =>
    rw [List.foldl_cons, show maxRowidAcc none x = some x.rowid from rfl]
    obtain ⟨s, hs, hmem, hle, hall⟩ := maxRowidAcc_go fl x.rowid
    have hxmem : x ∈ msgs.filter (fun m => m.text.isSome) := by rw [hfl]; simp
    refine ⟨s, hs, ?_, ?_⟩
    · rcases hmem with h | h
      · have := List.mem_filter.1 hxmem
        exact ⟨x, this.1, h.symm, this.2⟩
      · obtain ⟨m, hml, hmr⟩ := h
        have hmm : m ∈ msgs.filter (fun mm => mm.text.isSome) := by
          rw [hfl]; exact List.mem_cons_of_mem x hml
        have := List.mem_filter.1 hmm
        exact ⟨m, this.1, hmr, this.2⟩
    · intro m hm htm
      have hmm : m ∈ msgs.filter (fun mm => mm.text.isSome) := List.mem_filter.2 ⟨hm, htm⟩
      rw [hfl] at hmm
      rcases List.mem_cons.1 hmm with h | h
      · rw [h]; exact hle
      · exact hall m h

theorem sqlMaxTextRowid_ub (msgs : List DbMsg) (s : Nat)
    (h : sqlMaxTextRowid msgs = some s) :
    ∀ m ∈ msgs, m.text.isSome = true → m.rowid ≤ s := by
  intro m hm htm
  obtain ⟨s', hs', _, hall⟩ := sqlMaxTextRowid_spec msgs m hm htm
  rw [h] at hs'
  rw [Option.some_inj] at hs'
  rw [hs']
  exact hall m hm htm

/-! Lemmas about the per-contact loop. -/

theorem stepRecs_of_lookup (iso : Int → Option (List Char)) (c : Chat) (st : UnreadDb)
    (w : Nat) (h : List.lookup c.chat_id st = some w) :
    stepRecs iso c st = chQueryRecs iso c w := by
  unfold stepRecs
  rw [h]

theorem stepRecs_eq (iso : Int → Option (List Char)) (c : Chat) (st : UnreadDb) :
    stepRecs iso c st = [] ∨ ∃ w m, List.lookup c.chat_id st = some w ∧
      sqlLatestUnread c.messages w = some m ∧ stepRecs iso c st = [recordOf iso c m] := by
  unfold stepRecs chQueryRecs
  cases hl : List.lookup c.chat_id st with
  | none => exact Or.inl rfl
  | some w =>
    dsimp only
    cases hq : sqlLatestUnread c.messages w with
    | none => exact Or.inl rfl
    | some m => exact Or.inr ⟨w, m, rfl, hq, rfl⟩

theorem chQueryRecs_eq (iso : Int → Option (List Char)) (c : Chat) (w : Nat) :
    chQueryRecs iso c w = [] ∨ ∃ m, sqlLatestUnread c.messages w = some m ∧
      chQueryRecs iso c w = [recordOf iso c m] := by
  unfold chQueryRecs
  cases hq : sqlLatestUnread c.messages w with
  | none => exact Or.inl rfl
  | some m => exact Or.inr ⟨m, rfl, rfl⟩

theorem chQueryRecs_contact (iso : Int → Option (List Char)) (c : Chat) (w : Nat) :
    ∀ r ∈ chQueryRecs iso c w, r.contact_id = c.chat_id := by
  intro r hr
  rcases chQueryRecs_eq iso c w with h | ⟨m, _, h⟩
  · rw [h] at hr; simp at hr
  · rw [h, List.mem_singleton] at hr
    rw [hr]
    rfl

theorem stepRecs_contact (iso : Int → Option (List Char)) (c : Chat) (st : UnreadDb) :
    ∀ r ∈ stepRecs iso c st, r.contact_id = c.chat_id := by
  intro r hr
  rcases stepRecs_eq iso c st with h | ⟨w, m, _, _, h⟩
  · rw [h] at hr; simp at hr
  · rw [h, List.mem_singleton] at hr
    rw [hr]
    rfl

theorem sqlLatestUnread_props (msgs : List DbMsg) (w : Nat) (m : DbMsg)
    (hq : sqlLatestUnread msgs w = some m) :
    m ∈ msgs ∧ m.is_from_me = false ∧ m.text.isSome = true ∧ w < m.rowid := by
  have hmem := latestByDate_mem _ m hq
  have hflt := List.mem_filter.1 hmem
  have hprops := (unreadFilter_iff w m).1 hflt.2
  exact ⟨hflt.1, hprops.2.1, hprops.1, hprops.2.2⟩

theorem stepRecs_origin (iso : Int → Option (List Char)) (c : Chat) (st : UnreadDb) :
    ∀ r ∈ stepRecs iso c st, ∃ m, m ∈ c.messages ∧ m.is_from_me = false ∧
      m.text.isSome = true ∧ r = recordOf iso c m := by
  intro r hr
  rcases stepRecs_eq iso c st with h | ⟨w, m, _, hq, h⟩
  · rw [h] at hr; simp at hr
  · rw [h, List.mem_singleton] at hr
    obtain ⟨hm, hfm, htm, _⟩ := sqlLatestUnread_props c.messages w m hq
    exact ⟨m, hm, hfm, htm, hr⟩

theorem contact_step_fst (iso : Int → Option (List Char)) (c : Chat)
    (recs : List UnreadRecord) (st : UnreadDb) :
    (contact_step iso c (recs, st)).1 = recs ++ stepRecs iso c st := by
  unfold contact_step stepRecs chQueryRecs
  dsimp only
  cases List.lookup c.chat_id st with
  | none =>
    dsimp only
    cases sqlMaxTextRowid c.messages with
    | none => simp
    | some r =>
      dsimp only
      by_cases hr : r ≠ 0
      · rw [if_pos hr]; simp
      · rw [if_neg hr]; simp
  | some w =>
    dsimp only
    cases sqlLatestUnread c.messages w with
    | none => simp
    | some m => simp

theorem contact_step_preserves (iso : Int → Option (List Char)) (c : Chat)
    (recs : List UnreadRecord) (st : UnreadDb) (cid r : Nat)
    (h : List.lookup cid st = some r) :
    List.lookup cid (contact_step iso c (recs, st)).2 = some r := by
  unfold contact_step
  dsimp only
  cases hl : List.lookup c.chat_id st with
  | none =>
    dsimp only
    cases sqlMaxTextRowid c.messages with
    | none => exact h
    | some rm =>
      dsimp only
      by_cases hr : rm ≠ 0
      · rw [if_pos hr]
        dsimp only
        have hne : cid ≠ c.chat_id := by
          intro he; rw [he, hl] at h; exact absurd h (by simp)
        rw [lookup_upsert_ne st c.chat_id rm cid hne]
        exact h
      · rw [if_neg hr]; exact h
  | some w =>
    dsimp only
    cases sqlLatestUnread c.messages w with
    | none => exact h
    | some m => exact h

theorem unread_fold_cons (iso : Int → Option (List Char)) (c : Chat) (l : List Chat)
    (acc : List UnreadRecord × UnreadDb) :
    unread_fold iso (c :: l) acc = unread_fold iso l (contact_step iso c acc) := rfl

theorem unread_fold_preserves (iso : Int → Option (List Char)) :
    ∀ (l : List Chat) (recs : List UnreadRecord) (st : UnreadDb) (cid r : Nat),
      List.lookup cid st = some r →
      List.lookup cid (unread_fold iso l (recs, st)).2 = some r := by
  intro l
  induction l with
  | nil => intro recs st cid r h; exact h
  | cons c l ih =>
    intro recs st cid r h
    rw [unread_fold_cons,
        show contact_step iso c (recs, st) =
          ((contact_step iso c (recs, st)).1, (contact_step iso c (recs, st)).2) from rfl]
    exact ih _ _ cid r (contact_step_preserves iso c recs st cid r h)

theorem unread_fold_filter_absent (iso : Int → Option (List Char)) (chid : Nat) :
    ∀ (l : List Chat) (recs : List UnreadRecord) (st : UnreadDb),
      chid ∉ l.map Chat.chat_id →
      ((unread_fold iso l (recs, st)).1).filter (fun r => r.contact_id == chid) =
        recs.filter (fun r => r.contact_id == chid) := by
  intro l
  induction l with
  | nil => intro recs st _; rfl
  | cons c l ih =>
    intro recs st h
    rw [List.map_cons, List.mem_cons] at h
    push_neg at h
    rw [unread_fold_cons,
        show contact_step iso c (recs, st) =
          ((contact_step iso c (recs, st)).1, (contact_step iso c (recs, st)).2) from rfl,
        contact_step_fst]
    rw [ih _ _ h.2]
    have hnil : (stepRecs iso c st).filter (fun r => r.contact_id == chid) = [] :=
      List.filter_eq_nil_iff.2 (fun r hr => by
        rw [stepRecs_contact iso c st r hr]
        simp only [beq_iff_eq]
        exact fun he => h.1 he.symm)
    rw [List.filter_append, hnil, List.append_nil]

theorem unread_fold_filter_found (iso : Int → Option (List Char)) (ch : Chat) (w : Nat) :
    ∀ (l : List Chat) (recs : List UnreadRecord) (st : UnreadDb),
      (l.map Chat.chat_id).Nodup → ch ∈ l → List.lookup ch.chat_id st = some w →
      ((unread_fold iso l (recs, st)).1).filter (fun r => r.contact_id == ch.chat_id) =
        recs.filter (fun r => r.contact_id == ch.chat_id) ++ chQueryRecs iso ch w := by
  intro l
  induction l with
  | nil => intro recs st _ hch; simp at hch
  | cons c l ih =>
    intro recs st hnd hch hw
    rw [List.map_cons, List.nodup_cons] at hnd
    rw [unread_fold_cons,
        show contact_step iso c (recs, st) =
          ((contact_step iso c (recs, st)).1, (contact_step iso c (recs, st)).2) from rfl,
        contact_step_fst]
    by_cases hc : c.chat_id = ch.chat_id
    · have hcc : ch = c := by
        rcases List.mem_cons.1 hch with h | h
        · exact h
        · exact absurd (hc ▸ List.mem_map.2 ⟨ch, h, rfl⟩) hnd.1
      rw [hcc] at hw ⊢
      rw [stepRecs_of_lookup iso c st w hw]
      rw [unread_fold_filter_absent iso c.chat_id l _ _ hnd.1]
      have hself : (chQueryRecs iso c w).filter (fun r => r.contact_id == c.chat_id) =
          chQueryRecs iso c w :=
        List.filter_eq_self.2 (fun r hr => by
          rw [chQueryRecs_contact iso c w r hr]
          exact beq_self_eq_true _)
      rw [List.filter_append, hself]
    · have hch' : ch ∈ l := by
        rcases List.mem_cons.1 hch with h | h
        · exact absurd (congrArg Chat.chat_id h).symm hc
        · exact h
      have hw' : List.lookup ch.chat_id (contact_step iso c (recs, st)).2 = some w :=
        contact_step_preserves iso c recs st ch.chat_id w hw
      rw [ih _ _ hnd.2 hch' hw']
      have hnil : (stepRecs iso c st).filter (fun r => r.contact_id == ch.chat_id) = [] :=
        List.filter_eq_nil_iff.2 (fun r hr => by
          rw [stepRecs_contact iso c st r hr]
          simp only [beq_iff_eq]
          exact hc)
      rw [List.filter_append, hnil, List.append_nil]

theorem unread_fold_origin (iso : Int → Option (List Char)) :
    ∀ (l : List Chat) (recs : List UnreadRecord) (st : UnreadDb),
      ∀ r ∈ (unread_fold iso l (recs, st)).1, r ∈ recs ∨
        ∃ c, c ∈ l ∧ ∃ m, m ∈ c.messages ∧ m.is_from_me = false ∧
          m.text.isSome = true ∧ r = recordOf iso c m := by
  intro l
  induction l with
  | nil => intro recs st r hr; exact Or.inl hr
  | cons c l ih =>
    intro recs st r hr
    rw [unread_fold_cons,
        show contact_step iso c (recs, st) =
          ((contact_step iso c (recs, st)).1, (contact_step iso c (recs, st)).2) from rfl,
        contact_step_fst] at hr
    rcases ih _ _ r hr with h | h
    · rcases List.mem_append.1 h with h2 | h2
      · exact Or.inl h2
      · obtain ⟨m, hm, hfm, htm, hrm⟩ := stepRecs_origin iso c st r h2
        exact Or.inr ⟨c, List.mem_cons_self c l, m, hm, hfm, htm, hrm⟩
    · obtain ⟨c2, hc2, hrest⟩ := h
      exact Or.inr ⟨c2, List.mem_cons_of_mem c hc2, hrest⟩

theorem unread_fold_inert (iso : Int → Option (List Char)) :
    ∀ (l : List Chat) (recs : List UnreadRecord) (st : UnreadDb),
      (∀ c ∈ l, ∃ w, List.lookup c.chat_id st = some w ∧
        sqlLatestUnread c.messages w = none) →
      unread_fold iso l (recs, st) = (recs, st) := by
  intro l
  induction l with
  | nil => intro recs st _; rfl
  | cons c l ih =>
    intro recs st h
    obtain ⟨w, hw, hq⟩ := h c (List.mem_cons_self c l)
    have hstep : contact_step iso c (recs, st) = (recs, st) := by
      unfold contact_step
      dsimp only
      rw [hw]
      dsimp only
      rw [hq]
    rw [unread_fold_cons, hstep]
    exact ih recs st (fun c2 hc2 => h c2 (List.mem_cons_of_mem c hc2))

/-! Lemmas about the first-run initialization. -/

theorem save_unread_state_nil :
    ∀ (l : UnreadDb) (acc : UnreadDb), (∀ p ∈ l, List.lookup p.1 acc = none) →
      (l.map Prod.fst).Nodup → save_unread_state acc l = acc ++ l := by
  intro l
  induction l with
  | nil => intro acc _ _; rw [List.append_nil]; rfl
  | cons p l ih =>
    obtain ⟨k, v⟩ := p
    intro acc hnone hnd
    rw [List.map_cons, List.nodup_cons] at hnd
    have hstep : upsert acc k v = acc ++ [(k, v)] := by
      unfold upsert
      rw [if_neg (by rw [hnone (k, v) (List.mem_cons_self _ _)]; simp)]
    have h2 : ∀ q ∈ l, List.lookup q.1 (acc ++ [(k, v)]) = none := by
      intro q hq
      have hne : q.1 ≠ k := by
        intro he
        exact hnd.1 (he ▸ List.mem_map.2 ⟨q, hq, rfl⟩)
      rw [lookup_append_single_ne k v q.1 hne acc]
      exact hnone q (List.mem_cons_of_mem _ hq)
    calc save_unread_state acc ((k, v) :: l)
        = save_unread_state (acc ++ [(k, v)]) l := by rw [← hstep]; rfl
      _ = (acc ++ [(k, v)]) ++ l := ih _ h2 hnd.2
      _ = acc ++ (k, v) :: l := by rw [List.append_assoc, List.singleton_append]

theorem init_row_inv (c : Chat) (p : Nat × Nat) (hf : init_row c = some p) :
    p.1 = c.chat_id ∧ sqlMaxTextRowid c.messages = some p.2 ∧ p.2 ≠ 0 := by
  unfold init_row at hf
  revert hf
  cases hm : sqlMaxTextRowid c.messages with
  | none => intro hf; simp at hf
  | some r =>
    dsimp only
    by_cases hr : r ≠ 0
    · rw [if_pos hr]
      intro hf
      rw [Option.some_inj] at hf
      have h1 : c.chat_id = p.1 := congrArg Prod.fst hf
      have h2 : r = p.2 := congrArg Prod.snd hf
      refine ⟨h1.symm, ?_, fun h0 => hr (h2.trans h0)⟩
      rw [← h2]
    · rw [if_neg hr]
      intro hf
      simp at hf

theorem init_row_of (c : Chat) (r : Nat) (hm : sqlMaxTextRowid c.messages = some r)
    (hr : r ≠ 0) : init_row c = some (c.chat_id, r) := by
  unfold init_row
  rw [hm]
  dsimp only
  rw [if_pos hr]

theorem init_mem_inv (store : List Chat) (p : Nat × Nat)
    (h : p ∈ initialize_state_with_current_messages store) :
    ∃ c, c ∈ list_contacts store ∧ p.1 = c.chat_id ∧
      sqlMaxTextRowid c.messages = some p.2 ∧ p.2 ≠ 0 := by
  unfold initialize_state_with_current_messages at h
  obtain ⟨c, hc, hf⟩ := List.mem_filterMap.1 h
  exact ⟨c, hc, init_row_inv c p hf⟩

theorem init_mem_of (store : List Chat) (c : Chat) (r : Nat)
    (hc : c ∈ list_contacts store) (hm : sqlMaxTextRowid c.messages = some r)
    (hr : r ≠ 0) :
    (c.chat_id, r) ∈ initialize_state_with_current_messages store := by
  unfold initialize_state_with_current_messages
  exact List.mem_filterMap.2 ⟨c, hc, init_row_of c r hm hr⟩

theorem init_keys_sublist_aux :
    ∀ l : List Chat, List.Sublist ((l.filterMap init_row).map Prod.fst) (l.map Chat.chat_id) := by
  intro l
  induction l with
  | nil => simp
  | cons c l ih =>
    rw [List.filterMap_cons]
    cases hf : init_row c with
    | none =>
      rw [List.map_cons]
      exact ih.cons _
    | some p =>
      rw [List.map_cons, List.map_cons]
      rw [(init_row_inv c p hf).1]
      exact ih.cons₂ _

theorem init_keys_nodup (store : List Chat) (h : (store.map Chat.chat_id).Nodup) :
    ((initialize_state_with_current_messages store).map Prod.fst).Nodup := by
  have h1 : ((list_contacts store).map Chat.chat_id).Nodup :=
    h.sublist ((List.filter_sublist store).map Chat.chat_id)
  exact h1.sublist (init_keys_sublist_aux (list_contacts store))

theorem init_keys_subset (store : List Chat) (cid : Nat)
    (h : cid ∈ (initialize_state_with_current_messages store).map Prod.fst) :
    ∃ c, c ∈ list_contacts store ∧ c.chat_id = cid := by
  obtain ⟨p, hp, hfst⟩ := List.mem_map.1 h
  obtain ⟨c, hc, h1, _, _⟩ := init_mem_inv store p hp
  exact ⟨c, hc, by rw [← h1, hfst]⟩

theorem hasTextMessage_of_mem (c : Chat) (m : DbMsg) (hm : m ∈ c.messages)
    (ht : m.text.isSome = true) : hasTextMessage c = true := by
  unfold hasTextMessage
  rw [List.any_eq_true]
  exact ⟨m, hm, ht⟩

theorem chat_eq_of_id_eq (store : List Chat) (h : (store.map Chat.chat_id).Nodup)
    (c c2 : Chat) (hc : c ∈ store) (hc2 : c2 ∈ store) (he : c.chat_id = c2.chat_id) :
    c = c2 :=
  List.inj_on_of_nodup_map h hc hc2 he

/-! The RAG sync covers every new message, both directions. -/

theorem sync_covers_new_message (hash : List Char → List Char)
    (iso : Int → Option (List Char)) (store : List Chat) (st : UnreadDb)
    (existing : List (List Char)) (c : Chat) (m : DbMsg) (w : Nat)
    (hc : c ∈ list_contacts store) (hst : st ≠ [])
    (hw : List.lookup c.chat_id st = some w)
    (hm : m ∈ c.messages) (htm : m.text.isSome = true) (hgt : w < m.rowid)
    (hnew : create_message_id hash (Nat.toDigits 10 c.chat_id) (pyOptStr (iso m.date))
      (m.text.getD []) ∉ existing) :
    ∃ e ∈ sync_new_messages_to_rag hash iso store st existing,
      e.id = create_message_id hash (Nat.toDigits 10 c.chat_id) (pyOptStr (iso m.date))
        (m.text.getD []) := by
  unfold sync_new_messages_to_rag
  rw [if_neg hst]
  refine ⟨{ id := create_message_id hash (Nat.toDigits 10 c.chat_id)
              (pyOptStr (iso m.date)) (m.text.getD [])
          , doc := normalize_msg (pyOptStr (iso m.date)) m.is_from_me (m.text.getD []) },
          ?_, rfl⟩
  apply List.mem_flatMap.2
  refine ⟨c, hc, ?_⟩
  unfold sync_entries_for_contact
  rw [hw]
  dsimp only
  apply List.mem_filterMap.2
  refine ⟨m, ?_, ?_⟩
  · exact (List.perm_insertionSort _ _).mem_iff.2
      (List.mem_filter.2 ⟨hm, by
        rw [Bool.and_eq_true, decide_eq_true_eq]
        exact ⟨htm, hgt⟩⟩)
  · dsimp only
    rw [if_neg hnew]

/-! Unfolding equations for `get_unread_messages`. -/

theorem get_unread_bootstrap (hash : List Char → List Char)
    (iso : Int → Option (List Char)) (store : List Chat) (existing : List (List Char)) :
    get_unread_messages hash iso store [] existing =
      { records := []
      , state := save_unread_state [] (initialize_state_with_current_messages store)
      , ragAdds := [] } := by
  unfold get_unread_messages
  rw [if_pos rfl]

theorem get_unread_else (hash : List Char → List Char)
    (iso : Int → Option (List Char)) (store : List Chat) (st0 : UnreadDb)
    (existing : List (List Char)) (h : st0 ≠ []) :
    get_unread_messages hash iso store st0 existing =
      { records := sortRecsByTsDesc (unread_fold iso (list_contacts store) ([], st0)).1
      , state := (unread_fold iso (list_contacts store) ([], st0)).2
      , ragAdds := sync_new_messages_to_rag hash iso store
          (unread_fold iso (list_contacts store) ([], st0)).2 existing } := by
  unfold get_unread_messages
  rw [if_neg h]

theorem sortRecs_perm (l : List UnreadRecord) :
    List.Perm (sortRecsByTsDesc l) l := by
  unfold sortRecsByTsDesc
  exact List.perm_insertionSort _ l

theorem save_nil_init (store : List Chat) (hnodup : (store.map Chat.chat_id).Nodup) :
    save_unread_state [] (initialize_state_with_current_messages store) =
      initialize_state_with_current_messages store := by
  rw [save_unread_state_nil (initialize_state_with_current_messages store) []
      (fun p _ => rfl) (init_keys_nodup store hnodup)]
  rw [List.nil_append]

theorem listed_contact_row (store : List Chat)
    (hnodup : (store.map Chat.chat_id).Nodup)
    (htext : ∀ c ∈ store, ∀ m ∈ c.messages, m.text.isSome = true)
    (hpos : ∀ c ∈ store, ∀ m ∈ c.messages, 1 ≤ m.rowid)
    (c : Chat) (hc : c ∈ list_contacts store) :
    ∃ r, List.lookup c.chat_id (initialize_state_with_current_messages store) = some r ∧
      (∃ m ∈ c.messages, m.rowid = r) ∧ (∀ m ∈ c.messages, m.rowid ≤ r) ∧
      sqlLatestUnread c.messages r = none := by
  have hmemf := List.mem_filter.1 hc
  have hany := hmemf.2
  unfold hasTextMessage at hany
  rw [List.any_eq_true] at hany
  obtain ⟨m0, hm0, ht0⟩ := hany
  obtain ⟨s, hmax, hmem1, hub⟩ := sqlMaxTextRowid_spec c.messages m0 hm0 ht0
  obtain ⟨m1, hm1, hrow1, _⟩ := hmem1
  have hs0 : s ≠ 0 := by
    have h1 := hpos c hmemf.1 m1 hm1
    omega
  have hlook : List.lookup c.chat_id (initialize_state_with_current_messages store) =
      some s :=
    lookup_of_mem_keys_nodup c.chat_id s _ (init_keys_nodup store hnodup)
      (init_mem_of store c s hc hmax hs0)
  refine ⟨s, hlook, ⟨m1, hm1, hrow1⟩, ?_, ?_⟩
  · intro m hm
    exact hub m hm (htext c hmemf.1 m hm)
  · apply sqlLatestUnread_none_of
    intro m hm hflt
    have hprops := (unreadFilter_iff s m).1 hflt
    exact absurd (hub m hm hprops.1) (not_le_of_lt hprops.2.2)

/-- Claim C5: first-run bootstrap.  With an empty watermark table the
unread check returns no records (and syncs nothing), and its only
watermark effect is one row per known contact (a contact with at least one
message) holding that contact's maximum message id; contacts with no
messages and unknown ids get no row, and a follow-up check on the
resulting table reports nothing, so no pre-existing message is ever
surfaced as unread.  The hypotheses state the spec's data-model invariants
for the external store: distinct thread ids, every message carries text,
and rowids are positive. -/
theorem unread_first_run_bootstrap (hash : List Char → List Char)
    (iso : Int → Option (List Char)) (store : List Chat) (existing : List (List Char))
    (hnodup : (store.map Chat.chat_id).Nodup)
    (htext : ∀ c ∈ store, ∀ m ∈ c.messages, m.text.isSome = true)
    (hpos : ∀ c ∈ store, ∀ m ∈ c.messages, 1 ≤ m.rowid) :
    (get_unread_messages hash iso store [] existing).records = [] ∧
    (get_unread_messages hash iso store [] existing).ragAdds = [] ∧
    (∀ c ∈ store, c.messages ≠ [] →
       ∃ r, List.lookup c.chat_id (get_unread_messages hash iso store [] existing).state =
           some r ∧
         (∃ m ∈ c.messages, m.rowid = r) ∧ ∀ m ∈ c.messages, m.rowid ≤ r) ∧
    (∀ c ∈ store, c.messages = [] →
       List.lookup c.chat_id (get_unread_messages hash iso store [] existing).state = none) ∧
    (∀ cid, (∀ c ∈ store, c.chat_id ≠ cid) →
       List.lookup cid (get_unread_messages hash iso store [] existing).state = none) ∧
    (get_unread_messages hash iso store
       ((get_unread_messages hash iso store [] existing).state) existing).records = [] := by
  have hstate : (get_unread_messages hash iso store [] existing).state =
      initialize_state_with_current_messages store := by
    rw [get_unread_bootstrap hash iso store existing]
    exact save_nil_init store hnodup
  refine ⟨by rw [get_unread_bootstrap], by rw [get_unread_bootstrap], ?_, ?_, ?_, ?_⟩
  · intro c hc hne
    obtain ⟨m0, hm0⟩ := List.exists_mem_of_ne_nil c.messages hne
    have hc2 : c ∈ list_contacts store :=
      List.mem_filter.2 ⟨hc, hasTextMessage_of_mem c m0 hm0 (htext c hc m0 hm0)⟩
    obtain ⟨r, hlook, hmem, hub, _⟩ := listed_contact_row store hnodup htext hpos c hc2
    exact ⟨r, by rw [hstate]; exact hlook, hmem, hub⟩
  · intro c hc hnil
    rw [hstate]
    apply lookup_eq_none_of_not_mem_keys
    intro hkey
    obtain ⟨c2, hc2, hid⟩ := init_keys_subset store c.chat_id hkey
    have hc2s := (List.mem_filter.1 hc2).1
    have hcc : c2 = c := chat_eq_of_id_eq store hnodup c2 c hc2s hc hid
    have hany := (List.mem_filter.1 hc2).2
    rw [hcc] at hany
    unfold hasTextMessage at hany
    rw [List.any_eq_true] at hany
    obtain ⟨m, hm, _⟩ := hany
    rw [hnil] at hm
    simp at hm
  · intro cid hall
    rw [hstate]
    apply lookup_eq_none_of_not_mem_keys
    intro hkey
    obtain ⟨c2, hc2, hid⟩ := init_keys_subset store cid hkey
    exact hall c2 (List.mem_filter.1 hc2).1 hid
  · rw [hstate]
    by_cases hinit : initialize_state_with_current_messages store = []
    · rw [hinit, get_unread_bootstrap hash iso store existing]
    · rw [get_unread_else hash iso store _ existing hinit]
      rw [unread_fold_inert iso (list_contacts store) []
          (initialize_state_with_current_messages store) (fun c hc => by
            obtain ⟨r, hlook, _, _, hq⟩ := listed_contact_row store hnodup htext hpos c hc
            exact ⟨r, hlook, hq⟩)]
      rfl

/-- Witness for C5 at a one-contact store holding two messages. -/
theorem unread_first_run_bootstrap_witness :
    (([⟨1, none, [⟨1, some "a".toList, 1, false, none⟩,
                  ⟨2, some "b".toList, 2, true, none⟩]⟩] : List Chat).map
        Chat.chat_id).Nodup ∧
    (get_unread_messages (fun s => s) (fun _ => none)
        [⟨1, none, [⟨1, some "a".toList, 1, false, none⟩,
                    ⟨2, some "b".toList, 2, true, none⟩]⟩] [] []).records = [] ∧
    List.lookup 1 (get_unread_messages (fun s => s) (fun _ => none)
        [⟨1, none, [⟨1, some "a".toList, 1, false, none⟩,
                    ⟨2, some "b".toList, 2, true, none⟩]⟩] [] []).state = some 2 ∧
    (get_unread_messages (fun s => s) (fun _ => none)
        [⟨1, none, [⟨1, some "a".toList, 1, false, none⟩,
                    ⟨2, some "b".toList, 2, true, none⟩]⟩]
        ((get_unread_messages (fun s => s) (fun _ => none)
            [⟨1, none, [⟨1, some "a".toList, 1, false, none⟩,
                        ⟨2, some "b".toList, 2, true, none⟩]⟩] [] []).state) []).records =
      [] := by
  refine ⟨by decide, ?_, by decide, ?_⟩
  · exact (unread_first_run_bootstrap (fun s => s) (fun _ => none) _ []
      (by decide) (by decide) (by decide)).1
  · exact (unread_first_run_bootstrap (fun s => s) (fun _ => none) _ []
      (by decide) (by decide) (by decide)).2.2.2.2.2

/-- Claim C6: every unread check also runs the RAG sync, the sync picks up
every new message in both directions (any message with non-NULL text whose
rowid exceeds its contact's watermark and whose deterministic id is not
yet indexed yields a new Vector Index Store document), and the whole call
leaves every existing watermark row exactly as it was — only
`mark_contact_as_read` ever advances a watermark. -/
theorem unread_check_sync_frame (hash : List Char → List Char)
    (iso : Int → Option (List Char)) (store : List Chat) (st0 : UnreadDb)
    (existing : List (List Char))
    (hnodup : (store.map Chat.chat_id).Nodup) :
    (∀ cid r, List.lookup cid st0 = some r →
       List.lookup cid (get_unread_messages hash iso store st0 existing).state = some r) ∧
    (∀ c ∈ store, ∀ m ∈ c.messages, ∀ w,
       List.lookup c.chat_id (get_unread_messages hash iso store st0 existing).state =
         some w →
       m.text.isSome = true → w < m.rowid →
       create_message_id hash (Nat.toDigits 10 c.chat_id) (pyOptStr (iso m.date))
         (m.text.getD []) ∉ existing →
       ∃ e ∈ (get_unread_messages hash iso store st0 existing).ragAdds,
         e.id = create_message_id hash (Nat.toDigits 10 c.chat_id) (pyOptStr (iso m.date))
           (m.text.getD [])) := by
  by_cases hst : st0 = []
  · subst hst
    have hstate : (get_unread_messages hash iso store [] existing).state =
        initialize_state_with_current_messages store := by
      rw [get_unread_bootstrap hash iso store existing]
      exact save_nil_init store hnodup
    constructor
    · intro cid r h
      simp [List.lookup] at h
    · intro c hc m hm w hw htm hgt _
      exfalso
      rw [hstate] at hw
      obtain ⟨c2, hc2, hid, hmax, _⟩ :=
        init_mem_inv store (c.chat_id, w) (lookup_some_mem c.chat_id w _ hw)
      have hcc : c2 = c :=
        chat_eq_of_id_eq store hnodup c2 c (List.mem_filter.1 hc2).1 hc hid.symm
      rw [hcc] at hmax
      exact absurd (sqlMaxTextRowid_ub c.messages w hmax m hm htm) (not_le_of_lt hgt)
  · have hstate : (get_unread_messages hash iso store st0 existing).state =
        (unread_fold iso (list_contacts store) ([], st0)).2 := by
      rw [get_unread_else hash iso store st0 existing hst]
    have hrag : (get_unread_messages hash iso store st0 existing).ragAdds =
        sync_new_messages_to_rag hash iso store
          (unread_fold iso (list_contacts store) ([], st0)).2 existing := by
      rw [get_unread_else hash iso store st0 existing hst]
    constructor
    · intro cid r h
      rw [hstate]
      exact unread_fold_preserves iso (list_contacts store) [] st0 cid r h
    · intro c hc m hm w hw htm hgt hnew
      rw [hstate] at hw
      rw [hrag]
      exact sync_covers_new_message hash iso store _ existing c m w
        (List.mem_filter.2 ⟨hc, hasTextMessage_of_mem c m hm htm⟩)
        (lookup_ne_nil_of_some _ _ _ hw) hw hm htm hgt hnew

/-- Witness for C6: a one-contact store with watermark 1 and a new message
with rowid 2; the call preserves the row `(1, 1)` and syncs the new
message's document. -/
theorem unread_check_sync_frame_witness :
    (([⟨1, none, [⟨1, some "a".toList, 1, false, none⟩,
                  ⟨2, some "b".toList, 2, true, none⟩]⟩] : List Chat).map
        Chat.chat_id).Nodup ∧
    List.lookup 1 ([(1, 1)] : UnreadDb) = some 1 ∧
    List.lookup 1 (get_unread_messages (fun s => s) (fun _ => none)
        [⟨1, none, [⟨1, some "a".toList, 1, false, none⟩,
                    ⟨2, some "b".toList, 2, true, none⟩]⟩] [(1, 1)] []).state = some 1 ∧
    (∃ e ∈ (get_unread_messages (fun s => s) (fun _ => none)
        [⟨1, none, [⟨1, some "a".toList, 1, false, none⟩,
                    ⟨2, some "b".toList, 2, true, none⟩]⟩] [(1, 1)] []).ragAdds,
      e.id = create_message_id (fun s => s) (Nat.toDigits 10 1)
        (pyOptStr ((fun (_ : Int) => none) (2 : Int))) ("b".toList)) := by
  refine ⟨by decide, by decide, ?_, ?_⟩
  · exact (unread_check_sync_frame (fun s => s) (fun _ => none) _ [(1, 1)] []
      (by decide)).1 1 1 (by decide)
  · exact (unread_check_sync_frame (fun s => s) (fun _ => none) _ [(1, 1)] []
      (by decide)).2
      ⟨1, none, [⟨1, some "a".toList, 1, false, none⟩,
                 ⟨2, some "b".toList, 2, true, none⟩]⟩ (by decide)
      ⟨2, some "b".toList, 2, true, none⟩ (by decide) 1 (by decide) (by decide)
      (by decide) (by decide)

/-- Claim C4: unread detection.  For a contact with a watermark and at
least one incoming message above it, the unread check surfaces exactly one
record for that contact, carrying the id, text and timestamp of the latest
such incoming message; every surfaced record originates from an incoming
message (outgoing messages never produce one); and after marking that id
as read, a repeat check surfaces nothing for the contact.  The hypotheses
state the spec's data-model invariants: distinct thread ids, every message
carries text, and the contact's messages are listed in increasing rowid
and strictly increasing date ("latest" is unambiguous). -/
theorem unread_detection_roundtrip (hash : List Char → List Char)
    (iso : Int → Option (List Char)) (store : List Chat) (st0 : UnreadDb)
    (existing : List (List Char))
    (hnodup : (store.map Chat.chat_id).Nodup)
    (htext : ∀ c ∈ store, ∀ m ∈ c.messages, m.text.isSome = true)
    (ch : Chat) (hch : ch ∈ store)
    (hsorted : ch.messages.Pairwise (fun a b => a.rowid < b.rowid ∧ a.date < b.date))
    (w : Nat) (hw : List.lookup ch.chat_id st0 = some w)
    (m0 : DbMsg) (hm0 : m0 ∈ ch.messages) (hin0 : m0.is_from_me = false)
    (hgt0 : w < m0.rowid) :
    ∃ mS, mS ∈ ch.messages ∧ mS.is_from_me = false ∧ w < mS.rowid ∧
      (∀ m ∈ ch.messages, m.is_from_me = false → w < m.rowid → m.rowid ≤ mS.rowid) ∧
      (get_unread_messages hash iso store st0 existing).records.countP
          (fun r => r.contact_id == ch.chat_id) = 1 ∧
      (∀ r ∈ (get_unread_messages hash iso store st0 existing).records,
         r.contact_id = ch.chat_id →
           r.message_id = mS.rowid ∧ r.message = mS.text.getD [] ∧
           r.timestamp = iso mS.date) ∧
      (∀ r ∈ (get_unread_messages hash iso store st0 existing).records,
         ∃ c2, c2 ∈ store ∧ ∃ m, m ∈ c2.messages ∧ m.is_from_me = false ∧
           r.contact_id = c2.chat_id ∧ r.message_id = m.rowid ∧
           r.message = m.text.getD []) ∧
      (get_unread_messages hash iso store
          (mark_contact_as_read (get_unread_messages hash iso store st0 existing).state
            ch.chat_id mS.rowid) existing).records.countP
          (fun r => r.contact_id == ch.chat_id) = 0 := by
  have hst0 : st0 ≠ [] := lookup_ne_nil_of_some st0 ch.chat_id w hw
  have htm0 : m0.text.isSome = true := htext ch hch m0 hm0
  have hf0 : unreadFilter w m0 = true := (unreadFilter_iff w m0).2 ⟨htm0, hin0, hgt0⟩
  obtain ⟨mS, hq, hmemS, hfS, hmaxS⟩ :=
    sqlLatestUnread_found ch.messages w hsorted m0 hm0 hf0
  have hpS := (unreadFilter_iff w mS).1 hfS
  have hchL : ch ∈ list_contacts store :=
    List.mem_filter.2 ⟨hch, hasTextMessage_of_mem ch m0 hm0 htm0⟩
  have hndL : ((list_contacts store).map Chat.chat_id).Nodup :=
    hnodup.sublist ((List.filter_sublist store).map Chat.chat_id)
  have hfilter1 : ((unread_fold iso (list_contacts store) ([], st0)).1).filter
      (fun r => r.contact_id == ch.chat_id) = chQueryRecs iso ch w := by
    rw [unread_fold_filter_found iso ch w (list_contacts store) [] st0 hndL hchL hw]
    rfl
  have hchq1 : chQueryRecs iso ch w = [recordOf iso ch mS] := by
    unfold chQueryRecs
    rw [hq]
  have hrec1 : (get_unread_messages hash iso store st0 existing).records =
      sortRecsByTsDesc (unread_fold iso (list_contacts store) ([], st0)).1 := by
    rw [get_unread_else hash iso store st0 existing hst0]
  have hperm1 : List.Perm (get_unread_messages hash iso store st0 existing).records
      (unread_fold iso (list_contacts store) ([], st0)).1 := by
    rw [hrec1]
    exact sortRecs_perm _
  refine ⟨mS, hmemS, hpS.2.1, hpS.2.2, ?_, ?_, ?_, ?_, ?_⟩
  · intro m hm hfm hgtm
    exact hmaxS m hm ((unreadFilter_iff w m).2 ⟨htext ch hch m hm, hfm, hgtm⟩)
  · rw [hperm1.countP_eq, List.countP_eq_length_filter, hfilter1, hchq1]
    rfl
  · intro r hr hrc
    have hrmem := hperm1.mem_iff.1 hr
    have hrf : r ∈ ((unread_fold iso (list_contacts store) ([], st0)).1).filter
        (fun r => r.contact_id == ch.chat_id) :=
      List.mem_filter.2 ⟨hrmem, beq_iff_eq.2 hrc⟩
    rw [hfilter1, hchq1, List.mem_singleton] at hrf
    rw [hrf]
    exact ⟨rfl, rfl, rfl⟩
  · intro r hr
    have hrmem := hperm1.mem_iff.1 hr
    rcases unread_fold_origin iso (list_contacts store) [] st0 r hrmem with
      h | ⟨c2, hc2, m, hm, hfm, _, hrm⟩
    · simp at h
    · exact ⟨c2, (List.mem_filter.1 hc2).1, m, hm, hfm, by rw [hrm]; exact ⟨rfl, rfl, rfl⟩⟩
  · have hw1 : List.lookup ch.chat_id
        (get_unread_messages hash iso store st0 existing).state = some w := by
      rw [get_unread_else hash iso store st0 existing hst0]
      exact unread_fold_preserves iso (list_contacts store) [] st0 ch.chat_id w hw
    have hw2 : List.lookup ch.chat_id
        (mark_contact_as_read (get_unread_messages hash iso store st0 existing).state
          ch.chat_id mS.rowid) = some mS.rowid := by
      rw [lookup_mark_self _ ch.chat_id mS.rowid w hw1,
          Nat.max_eq_right (le_of_lt hpS.2.2)]
    have hst2 : mark_contact_as_read (get_unread_messages hash iso store st0 existing).state
        ch.chat_id mS.rowid ≠ [] := lookup_ne_nil_of_some _ _ _ hw2
    rw [get_unread_else hash iso store _ existing hst2]
    dsimp only
    rw [(sortRecs_perm _).countP_eq, List.countP_eq_length_filter]
    rw [unread_fold_filter_found iso ch mS.rowid (list_contacts store) [] _ hndL hchL hw2]
    have hq2 : sqlLatestUnread ch.messages mS.rowid = none := by
      apply sqlLatestUnread_none_of
      intro m hm hflt
      have hp := (unreadFilter_iff mS.rowid m).1 hflt
      have hfw : unreadFilter w m = true :=
        (unreadFilter_iff w m).2 ⟨hp.1, hp.2.1, lt_trans hpS.2.2 hp.2.2⟩
      exact absurd (hmaxS m hm hfw) (not_le_of_lt hp.2.2)
    rw [show chQueryRecs iso ch mS.rowid = [] by unfold chQueryRecs; rw [hq2]]
    rfl

/-- Witness for C4: contact 1 with watermark 1 and one new incoming
message with rowid 2. -/
theorem unread_detection_roundtrip_witness :
    (([⟨1, none, [⟨1, some "a".toList, 1, false, none⟩,
                  ⟨2, some "b".toList, 2, false, none⟩]⟩] : List Chat).map
        Chat.chat_id).Nodup ∧
    List.lookup 1 ([(1, 1)] : UnreadDb) = some 1 ∧
    (∃ mS, mS ∈ [⟨1, some "a".toList, 1, false, none⟩,
                 (⟨2, some "b".toList, 2, false, none⟩ : DbMsg)] ∧
      mS.is_from_me = false ∧ 1 < mS.rowid ∧
      (∀ m ∈ [⟨1, some "a".toList, 1, false, none⟩,
              (⟨2, some "b".toList, 2, false, none⟩ : DbMsg)],
         m.is_from_me = false → 1 < m.rowid → m.rowid ≤ mS.rowid) ∧
      (get_unread_messages (fun s => s) (fun _ => none)
          [⟨1, none, [⟨1, some "a".toList, 1, false, none⟩,
                      ⟨2, some "b".toList, 2, false, none⟩]⟩] [(1, 1)] []).records.countP
          (fun r => r.contact_id == 1) = 1 ∧
      (∀ r ∈ (get_unread_messages (fun s => s) (fun _ => none)
          [⟨1, none, [⟨1, some "a".toList, 1, false, none⟩,
                      ⟨2, some "b".toList, 2, false, none⟩]⟩] [(1, 1)] []).records,
         r.contact_id = 1 →
           r.message_id = mS.rowid ∧ r.message = mS.text.getD [] ∧
           r.timestamp = (fun (_ : Int) => (none : Option (List Char))) mS.date) ∧
      (∀ r ∈ (get_unread_messages (fun s => s) (fun _ => none)
          [⟨1, none, [⟨1, some "a".toList, 1, false, none⟩,
                      ⟨2, some "b".toList, 2, false, none⟩]⟩] [(1, 1)] []).records,
         ∃ c2, c2 ∈ [(⟨1, none, [⟨1, some "a".toList, 1, false, none⟩,
                      ⟨2, some "b".toList, 2, false, none⟩]⟩ : Chat)] ∧
           ∃ m, m ∈ c2.messages ∧ m.is_from_me = false ∧
             r.contact_id = c2.chat_id ∧ r.message_id = m.rowid ∧
             r.message = m.text.getD []) ∧
      (get_unread_messages (fun s => s) (fun _ => none)
          [⟨1, none, [⟨1, some "a".toList, 1, false, none⟩,
                      ⟨2, some "b".toList, 2, false, none⟩]⟩]
          (mark_contact_as_read
            (get_unread_messages (fun s => s) (fun _ => none)
              [⟨1, none, [⟨1, some "a".toList, 1, false, none⟩,
                          ⟨2, some "b".toList, 2, false, none⟩]⟩] [(1, 1)] []).state
            1 mS.rowid) []).records.countP (fun r => r.contact_id == 1) = 0) :=
  ⟨by decide, by decide,
   unread_detection_roundtrip (fun s => s) (fun _ => none)
     [⟨1, none, [⟨1, some "a".toList, 1, false, none⟩,
                 ⟨2, some "b".toList, 2, false, none⟩]⟩] [(1, 1)] []
     (by decide) (by decide)
     ⟨1, none, [⟨1, some "a".toList, 1, false, none⟩,
                ⟨2, some "b".toList, 2, false, none⟩]⟩ (by decide)
     (by decide) 1 (by decide)
     ⟨2, some "b".toList, 2, false, none⟩ (by decide) (by decide) (by decide)⟩

end Argo
